import Mathlib

/-!
# Pick-and-place routine of `demo_pick_place3.cpp`

A shallow embedding of `src/clam_pick_place/src/demo_pick_place3.cpp`.

* Numbers of type `double` are elements of a type `R` that has the arithmetic
  operations, the order test and the literals that the program uses.  The
  constants and functions of the C math library (`M_PI`, `sin`, `cos`) and the
  conversion of a `double` to `float` are the fields of `Libm R`.  Taking
  `R := ℝ` with the real `π`, `sin`, `cos` gives exact real arithmetic, taking
  `R := ℚ` gives exact rational arithmetic, and taking `R := Binary64` gives
  the arithmetic of IEEE 754 doubles, every operation rounded to nearest.
* The outside world (ROS, MoveIt, the grasp generator, the console) is an
  `Env`: every call that returns a value reads it from an oracle indexed
  by the number of earlier calls of the same kind.  `World` holds these
  call counters and the list of events the program has produced so far.
* The two `while (ros::ok())` loops of `startRoutine` and the `for` loop of
  `place` are recursive functions with a fuel argument; they return `none`
  only when the fuel is exhausted.
-/

namespace ClamPickPlace

/-! ## Message types -/

/-- The message `geometry_msgs/Point`. -/
structure Point (R : Type) where
  x : R
  y : R
  z : R

/-- The message `geometry_msgs/Vector3`. -/
structure Vector3 (R : Type) where
  x : R
  y : R
  z : R

/-- The message `geometry_msgs/Quaternion`. -/
structure Quaternion (R : Type) where
  x : R
  y : R
  z : R
  w : R

/-- The message `geometry_msgs/Pose`. -/
structure Pose (R : Type) where
  position : Point R
  orientation : Quaternion R

/-- The message `std_msgs/Header`; `stamp` is a `ros::Time` value. -/
structure Header where
  seq : Nat
  stamp : Nat
  frame_id : String

/-- The message `geometry_msgs/PoseStamped`. -/
structure PoseStamped (R : Type) where
  header : Header
  pose : Pose R

/-- The message `geometry_msgs/Vector3Stamped`. -/
structure Vector3Stamped (R : Type) where
  header : Header
  vector : Vector3 R

/-- The message `moveit_msgs/GripperTranslation`.  The two distances are `float32` fields:
they hold the number that the stored `float` stands for. -/
structure GripperTranslation (R : Type) where
  direction : Vector3Stamped R
  desired_distance : R
  min_distance : R

/-- The message `trajectory_msgs/JointTrajectoryPoint`. -/
structure JointTrajectoryPoint (R : Type) where
  positions : List R
  velocities : List R
  accelerations : List R
  effort : List R
  time_from_start : Nat

/-- The message `trajectory_msgs/JointTrajectory`. -/
structure JointTrajectory (R : Type) where
  header : Header
  joint_names : List String
  points : List (JointTrajectoryPoint R)

/-- The message `moveit_msgs/Grasp`. -/
structure Grasp (R : Type) where
  id : String
  pre_grasp_posture : JointTrajectory R
  grasp_posture : JointTrajectory R
  grasp_pose : PoseStamped R
  grasp_quality : R
  pre_grasp_approach : GripperTranslation R
  post_grasp_retreat : GripperTranslation R
  post_place_retreat : GripperTranslation R
  max_contact_force : R
  allowed_touch_objects : List String

/-- The message `moveit_msgs/PlaceLocation`. -/
structure PlaceLocation (R : Type) where
  id : String
  post_place_posture : JointTrajectory R
  place_pose : PoseStamped R
  pre_place_approach : GripperTranslation R
  post_place_retreat : GripperTranslation R
  allowed_touch_objects : List String

/-- The members of `moveit_simple_grasps::GraspData` that the program reads.  The two
distances are `double` members. -/
structure GraspData (R : Type) where
  base_link_ : String
  ee_parent_link_ : String
  ee_group_ : String
  pre_grasp_posture_ : JointTrajectory R
  grasp_posture_ : JointTrajectory R
  approach_retreat_desired_dist_ : R
  approach_retreat_min_dist_ : R

/-- The struct `MetaBlock` (source lines 55-60). -/
structure MetaBlock (R : Type) where
  name : String
  start_pose : Pose R
  goal_pose : Pose R

/-- The colours of `moveit_visual_tools`. -/
inductive Color where
  | RED
  | GREEN
  | BLUE
  | GREY
  | WHITE
  | ORANGE
  | BLACK
  | YELLOW

/-- Severity of a `ROS_*_STREAM_NAMED` console line. -/
inductive LogLevel where
  | info
  | warn
  | error
deriving DecidableEq

/-! ## The outside world -/

/-- The constant `M_PI` and the functions `sin`, `cos` of the C math library, and the
conversion that C++ applies when a `double` is stored in a `float`. -/
structure Libm (R : Type) where
  pi : R
  sin : R → R
  cos : R → R
  /-- The value of `static_cast<float>(x)`, as a number. -/
  toFloat32 : R → R

/-- The process-wide settings: `grasp_data_`, `auto_reset_`, `auto_reset_sec_`
(source lines 68, 81, 82). -/
structure Settings (R : Type) where
  grasp_data_ : GraspData R
  auto_reset_ : Bool
  auto_reset_sec_ : Int

/-- What the program does to the outside world, in program order. -/
inductive Event (R : Type) where
  /-- One `ROS_INFO/WARN/ERROR_STREAM_NAMED(name, msg)` line. -/
  | log (lvl : LogLevel) (name msg : String)
  /-- One evaluation of `ros::ok()` and its value. -/
  | rosOk (alive : Bool)
  | setMuted (muted : Bool)
  | cleanupACO (name : String)
  | cleanupCO (name : String)
  | publishCollisionBlock (pose : Pose R) (name : String) (size : R)
  | publishBlock (pose : Pose R) (color : Color) (size : R)
  | generateBlockGrasps (pose : Pose R)
  | publishGrasps (grasps : List (Grasp R)) (ee_parent_link : String)
  /-- The call `move_group_->pick(object, grasps)` and the verdict it returned. -/
  | moveGroupPick (object : String) (grasps : List (Grasp R)) (verdict : Bool)
  | setPlannerId (id : String)
  /-- The call `move_group_->place(object, locations)` and the verdict it returned. -/
  | moveGroupPlace (object : String) (locations : List (PlaceLocation R)) (verdict : Bool)
  /-- The call `ros::Duration(sec).sleep()`. -/
  | sleep (sec : Int)
  /-- The extraction `std::cin >> input` and the character it stored. -/
  | cinRead (input : Char)
  /-- The call `pub_arm_done.publish(myMsg)`. -/
  | publishArmDone

/-- The answers of the outside world.  The first argument of every oracle is
the number of earlier calls of the same kind. -/
structure Env (R : Type) where
  /-- Value of `ros::ok()`. -/
  rosOk : Nat → Bool
  /-- Value of `ros::Time::now()`. -/
  now : Nat → Nat
  /-- Grasps that `simple_grasps_->generateBlockGrasps` appends to its output. -/
  generateBlockGrasps : Nat → Pose R → GraspData R → List (Grasp R)
  /-- Verdict of `move_group_->pick`. -/
  pickVerdict : Nat → String → List (Grasp R) → Bool
  /-- Verdict of `move_group_->place`. -/
  placeVerdict : Nat → String → List (PlaceLocation R) → Bool
  /-- Character stored by `std::cin >> input`. -/
  cin : Nat → Char

/-- Call counters of the oracles and the events produced so far. -/
structure World (R : Type) where
  okCalls : Nat
  nowCalls : Nat
  graspCalls : Nat
  pickCalls : Nat
  placeCalls : Nat
  cinReads : Nat
  trace : List (Event R)

/-- The world before the program has done anything. -/
def World.start (R : Type) : World R :=
  { okCalls := 0, nowCalls := 0, graspCalls := 0, pickCalls := 0, placeCalls := 0,
    cinReads := 0, trace := [] }

/-- Append one event to the trace. -/
def World.emit {R : Type} (w : World R) (e : Event R) : World R :=
  { w with trace := w.trace ++ [e] }

/-- Evaluate `ros::ok()`. -/
def rosOk {R : Type} (env : Env R) (w : World R) : Bool × World R :=
  let alive := env.rosOk w.okCalls
  (alive, { w with okCalls := w.okCalls + 1, trace := w.trace ++ [Event.rosOk alive] })

/-- Evaluate `ros::Time::now()`. -/
def rosTimeNow {R : Type} (env : Env R) (w : World R) : Nat × World R :=
  (env.now w.nowCalls, { w with nowCalls := w.nowCalls + 1 })

/-! ## The program -/

section Program

variable {R : Type} [Zero R] [One R] [NatCast R] [Add R] [Mul R] [Div R] [Neg R] [LT R]
  [DecidableRel (α := R) (· < ·)] [OfScientific R]

/-- The constant `BLOCK_SIZE` (source line 53). -/
def BLOCK_SIZE : R := 0.04

/-- A default-constructed `geometry_msgs::Pose`: every number is zero. -/
def Pose.zero : Pose R :=
  { position := { x := 0, y := 0, z := 0 }, orientation := { x := 0, y := 0, z := 0, w := 0 } }

/-- Modelled from the spec: the conversion
`Eigen::Quaterniond(Eigen::AngleAxis<double>(angle, axis))`, library code that is
not part of the repository.  The spec calls its value "the quaternion for a pure
rotation of θ about the vertical axis"; Eigen computes it as `w = cos(angle/2)`,
`vec = sin(angle/2) * axis`. -/
def quaternionOfAngleAxis (m : Libm R) (angle : R) (axis : Vector3 R) : Quaternion R :=
  let ha := (0.5 : R) * angle
  { w := m.cos ha, x := m.sin ha * axis.x, y := m.sin ha * axis.y, z := m.sin ha * axis.z }

/-- The vector `Eigen::Vector3d::UnitZ()`. -/
def UnitZ : Vector3 R := { x := 0, y := 0, z := 1 }

/-- The function `resetBlock` (source lines 85-95). -/
def resetBlock (block : MetaBlock R) (w : World R) : World R :=
  -- Remove attached object
  let w := w.emit (Event.cleanupACO block.name)
  -- Remove collision object
  let w := w.emit (Event.cleanupCO block.name)
  -- Add the collision block
  w.emit (Event.publishCollisionBlock block.start_pose block.name BLOCK_SIZE)

/-- The function `createStartBlock` (source lines 97-116). -/
def createStartBlock (m : Libm R) (x y : R) (name : String) : MetaBlock R :=
  let angle : R := 0
  let quat := quaternionOfAngleAxis m angle UnitZ
  { name := name
    start_pose :=
      { position := { x := x, y := y, z := BLOCK_SIZE / 2.0 }
        orientation := { x := quat.x, y := quat.y, z := quat.z, w := quat.w } }
    goal_pose := Pose.zero }

/-- The loop of source lines 142-145: for `i` from its current value up to
`possible_grasps.size()`, overwrite `possible_grasps[i].allowed_touch_objects`.
The first argument is the number of iterations that remain. -/
def setAllowedTouchLoop (allowed_touch_objects : List String) :
    Nat → Nat → List (Grasp R) → List (Grasp R)
  | 0, _, possible_grasps => possible_grasps
  | n + 1, i, possible_grasps =>
    setAllowedTouchLoop allowed_touch_objects n (i + 1)
      (possible_grasps.modify
        (fun g => { g with allowed_touch_objects := allowed_touch_objects }) i)

/-- The function `pick` (source lines 118-151). -/
def pick (env : Env R) (cfg : Settings R) (block_pose : Pose R) (block_name : String)
    (w : World R) : Bool × World R :=
  -- Pick grasp
  let possible_grasps := env.generateBlockGrasps w.graspCalls block_pose cfg.grasp_data_
  let w := { w with graspCalls := w.graspCalls + 1 }
  let w := w.emit (Event.generateBlockGrasps block_pose)
  -- Visualize them
  let w := w.emit (Event.publishGrasps possible_grasps cfg.grasp_data_.ee_parent_link_)
  -- Allow blocks to be touched by end effector
  let allowed_touch_objects : List String := []
  let allowed_touch_objects := allowed_touch_objects ++ ["Block1"]
  let allowed_touch_objects := allowed_touch_objects ++ ["Block2"]
  let allowed_touch_objects := allowed_touch_objects ++ ["Block3"]
  let allowed_touch_objects := allowed_touch_objects ++ ["Block4"]
  -- Add this list to all grasps
  let possible_grasps :=
    setAllowedTouchLoop allowed_touch_objects possible_grasps.length 0 possible_grasps
  let verdict := env.pickVerdict w.pickCalls block_name possible_grasps
  let w := { w with pickCalls := w.pickCalls + 1 }
  (verdict, w.emit (Event.moveGroupPick block_name possible_grasps verdict))

/-- The body of the `for` loop of `place` (source lines 167-207) at yaw `angle`: the place
location that the body builds and pushes to `place_locations`.  `header` is the header of
the re-used `pose_stamped`. -/
def placeLoopBody (env : Env R) (cfg : Settings R) (m : Libm R) (goal_block_pose : Pose R)
    (header : Header) (angle : R) (w : World R) : PlaceLocation R × World R :=
  -- Orientation
  let quat := quaternionOfAngleAxis m angle UnitZ
  let pose_stamped : PoseStamped R :=
    { header := header
      pose :=
        { goal_block_pose with
          orientation := { x := quat.x, y := quat.y, z := quat.z, w := quat.w } } }
  let w := w.emit (Event.publishBlock pose_stamped.pose Color.BLUE BLOCK_SIZE)
  -- Approach
  let (stamp, w) := rosTimeNow env w
  let pre_place_approach : GripperTranslation R :=
    { direction :=
        { header := { seq := 0, stamp := stamp, frame_id := cfg.grasp_data_.base_link_ }
          vector := { x := 0, y := 0, z := -1 } }
      desired_distance := m.toFloat32 cfg.grasp_data_.approach_retreat_desired_dist_
      min_distance := m.toFloat32 cfg.grasp_data_.approach_retreat_min_dist_ }
  -- Retreat
  let (stamp, w) := rosTimeNow env w
  let post_place_retreat : GripperTranslation R :=
    { direction :=
        { header := { seq := 0, stamp := stamp, frame_id := cfg.grasp_data_.base_link_ }
          vector := { x := 0, y := 0, z := 1 } }
      desired_distance := m.toFloat32 cfg.grasp_data_.approach_retreat_desired_dist_
      min_distance := m.toFloat32 cfg.grasp_data_.approach_retreat_min_dist_ }
  -- Post place posture - use same as pre-grasp posture (the OPEN command)
  let place_loc : PlaceLocation R :=
    { id := ""
      post_place_posture := cfg.grasp_data_.pre_grasp_posture_
      place_pose := pose_stamped
      pre_place_approach := pre_place_approach
      post_place_retreat := post_place_retreat
      allowed_touch_objects := [] }
  (place_loc, w)

/-- The `for` loop of `place` (source lines 165-209), started at `angle` with the
locations built so far: `for (angle = 0; angle < 2*M_PI; angle += M_PI/2)`. -/
def placeLoop (env : Env R) (cfg : Settings R) (m : Libm R) (goal_block_pose : Pose R)
    (header : Header) :
    Nat → R → World R → List (PlaceLocation R) → Option (World R × List (PlaceLocation R))
  | 0, _, _, _ => none
  | fuel + 1, angle, w, place_locations =>
    if angle < 2 * m.pi then
      let (place_loc, w) := placeLoopBody env cfg m goal_block_pose header angle w
      placeLoop env cfg m goal_block_pose header fuel (angle + m.pi / 2) w
        (place_locations ++ [place_loc])
    else
      some (w, place_locations)

/-- The course of the loop condition `angle < 2*M_PI` as `angle` is stepped by `M_PI/2`
from `0`: it holds at the first four values and fails at the fifth. -/
def FourTurns (m : Libm R) : Prop :=
  (0 : R) < 2 * m.pi ∧
  (0 : R) + m.pi / 2 < 2 * m.pi ∧
  (0 : R) + m.pi / 2 + m.pi / 2 < 2 * m.pi ∧
  (0 : R) + m.pi / 2 + m.pi / 2 + m.pi / 2 < 2 * m.pi ∧
  ¬ (0 : R) + m.pi / 2 + m.pi / 2 + m.pi / 2 + m.pi / 2 < 2 * m.pi

/-- The function `place` (source lines 153-217). -/
def place (env : Env R) (cfg : Settings R) (m : Libm R) (fuel : Nat)
    (goal_block_pose : Pose R) (block_name : String) (w : World R) :
    Option (Bool × World R) :=
  let w := w.emit (Event.log LogLevel.warn "place" ("Placing \x27" ++ block_name ++ "\x27"))
  -- Re-usable datastruct
  let (stamp, w) := rosTimeNow env w
  let header : Header := { seq := 0, stamp := stamp, frame_id := cfg.grasp_data_.base_link_ }
  -- Create 360 degrees of place location rotated around a center
  match placeLoop env cfg m goal_block_pose header fuel 0 w [] with
  | none => none
  | some (w, place_locations) =>
    let w := w.emit (Event.setPlannerId "RRTConnectkConfigDefault")
    let verdict := env.placeVerdict w.placeCalls block_name place_locations
    let w := { w with placeCalls := w.placeCalls + 1 }
    some (verdict, w.emit (Event.moveGroupPlace block_name place_locations verdict))

/-- The function `promptUser` (source lines 219-239). -/
def promptUser (env : Env R) (cfg : Settings R) (w : World R) : Bool × World R :=
  -- Make sure ROS is still with us
  let (alive, w) := rosOk env w
  if !alive then (false, w)
  else if cfg.auto_reset_ then
    let w := w.emit (Event.log LogLevel.info "pick_place"
      ("Auto-retrying in " ++ toString cfg.auto_reset_sec_ ++ " seconds"))
    let w := w.emit (Event.sleep cfg.auto_reset_sec_)
    (true, w)
  else
    let w := w.emit (Event.log LogLevel.info "pick_place" "Retry? (y/n)")
    let input := env.cin w.cinReads
    let w := { w with cinReads := w.cinReads + 1 }
    let w := w.emit (Event.cinRead input)
    if input = 'n' then (false, w) else (true, w)

/-- The first `while (ros::ok())` loop of `startRoutine` (source lines 255-269). -/
def pickRetryLoop (env : Env R) (cfg : Settings R) (end_block : MetaBlock R) :
    Nat → World R → Option (World R)
  | 0, _ => none
  | fuel + 1, w =>
    let (alive, w) := rosOk env w
    if !alive then some w
    else
      let (picked, w) := pick env cfg end_block.start_pose end_block.name w
      if !picked then
        let w := w.emit (Event.log LogLevel.error "pick_place" "Pick failed.")
        let (retry, w) := promptUser env cfg w
        if !retry then some w
        else pickRetryLoop env cfg end_block fuel (resetBlock end_block w)
      else
        some (w.emit (Event.log LogLevel.info "pick_place"
          "Done with pick ---------------------------"))

/-- The second `while (ros::ok())` loop of `startRoutine` (source lines 274-287).  The
`for` loop inside `place` draws on the fuel that is left. -/
def placeRetryLoop (env : Env R) (cfg : Settings R) (m : Libm R) (end_block : MetaBlock R) :
    Nat → World R → Option (World R)
  | 0, _ => none
  | fuel + 1, w =>
    let (alive, w) := rosOk env w
    if !alive then some w
    else
      match place env cfg m (fuel + 1) end_block.goal_pose end_block.name w with
      | none => none
      | some (placed, w) =>
        if !placed then
          let w := w.emit (Event.log LogLevel.error "pick_place" "Place failed.")
          let (retry, w) := promptUser env cfg w
          if !retry then some w
          else placeRetryLoop env cfg m end_block fuel w
        else
          some (w.emit (Event.log LogLevel.info "pick_place"
            "Done with place ----------------------------"))

/-- The goal pose that `startRoutine` computes for its block (source lines 243-247): the
start pose of `createStartBlock(0.35, 0.1, "Block1")` with `0.2` added to `y`. -/
def routineGoal (m : Libm R) : Pose R :=
  let block_y : R := 0.1
  let block_x : R := 0.35
  let end_block := createStartBlock m block_x block_y "Block1"
  let end_block := { end_block with goal_pose := end_block.start_pose }
  let end_block :=
    { end_block with
      goal_pose :=
        { end_block.goal_pose with
          position :=
            { end_block.goal_pose.position with y := end_block.goal_pose.position.y + 0.2 } } }
  end_block.goal_pose

/-- The function `startRoutine` (source lines 241-293). -/
def startRoutine (env : Env R) (cfg : Settings R) (m : Libm R) (fuel : Nat) (w : World R) :
    Option (World R) :=
  let block_y : R := 0.1
  let block_x : R := 0.35
  let end_block := createStartBlock m block_x block_y "Block1"
  let end_block := { end_block with goal_pose := end_block.start_pose }
  let end_block :=
    { end_block with
      goal_pose :=
        { end_block.goal_pose with
          position :=
            { end_block.goal_pose.position with y := end_block.goal_pose.position.y + 0.2 } } }
  let w := w.emit (Event.setMuted false)
  let w := resetBlock end_block w
  let w := w.emit (Event.log LogLevel.info "pick_place"
    ("Picking \x27" ++ end_block.name ++ "\x27"))
  let w := w.emit (Event.publishBlock end_block.start_pose Color.BLUE BLOCK_SIZE)
  match pickRetryLoop env cfg end_block fuel w with
  | none => none
  | some w =>
    let w := w.emit (Event.log LogLevel.info "pick_place"
      ("Placing \x27" ++ end_block.name ++ "\x27"))
    let w := w.emit (Event.publishBlock end_block.goal_pose Color.BLUE BLOCK_SIZE)
    match placeRetryLoop env cfg m end_block fuel w with
    | none => none
    | some w =>
      let w := w.emit Event.publishArmDone
      some (w.emit (Event.log LogLevel.info "pick_place"
        "Finish. ----------------------------"))

end Program

/-! ## Binary floating point -/

/-- The integer nearest to `q`, the even one of the two when `q` lies half way. -/
def roundHalfEven (q : ℚ) : ℤ :=
  if q - ⌊q⌋ < 1 / 2 then ⌊q⌋
  else if 1 / 2 < q - ⌊q⌋ then ⌊q⌋ + 1
  else if ⌊q⌋ % 2 = 0 then ⌊q⌋ else ⌊q⌋ + 1

/-- The IEEE 754 rounding of `q` to the nearest number of the binary format with `prec`
significant bits and least normal exponent `emin`, ties to even.  Numbers too large for
the format, which IEEE 754 rounds to an infinity, are outside this model. -/
def roundBinary (prec : Nat) (emin : ℤ) (q : ℚ) : ℚ :=
  if q = 0 then 0
  else
    let e := max (Int.log 2 |q|) emin
    let quantum : ℚ := 2 ^ (e - ((prec : ℤ) - 1))
    (roundHalfEven (q / quantum) : ℚ) * quantum

/-- Rounding to `float` (binary32). -/
def roundToFloat32 (q : ℚ) : ℚ := roundBinary 24 (-126) q

/-- Rounding to `double` (binary64). -/
def roundToFloat64 (q : ℚ) : ℚ := roundBinary 53 (-1022) q

/-- The finite values of the type `double`, each given by the rational number it stands
for.  The operations are those of IEEE 754: the exact result rounded to nearest, ties to
even.  Infinities and NaN, and with them overflow and division by zero, are outside this
model. -/
structure Binary64 where
  val : ℚ

instance Binary64.instZero : Zero Binary64 := ⟨⟨0⟩⟩

instance Binary64.instOne : One Binary64 := ⟨⟨1⟩⟩

instance Binary64.instNatCast : NatCast Binary64 := ⟨fun n => ⟨roundToFloat64 n⟩⟩

instance Binary64.instAdd : Add Binary64 := ⟨fun a b => ⟨roundToFloat64 (a.val + b.val)⟩⟩

instance Binary64.instMul : Mul Binary64 := ⟨fun a b => ⟨roundToFloat64 (a.val * b.val)⟩⟩

instance Binary64.instDiv : Div Binary64 := ⟨fun a b => ⟨roundToFloat64 (a.val / b.val)⟩⟩

instance Binary64.instNeg : Neg Binary64 := ⟨fun a => ⟨-a.val⟩⟩

instance Binary64.instLT : LT Binary64 := ⟨fun a b => a.val < b.val⟩

instance Binary64.instDecidableLT : DecidableRel (α := Binary64) (· < ·) :=
  fun a b => inferInstanceAs (Decidable (a.val < b.val))

/-- A decimal literal is the double nearest to it. -/
instance Binary64.instOfScientific : OfScientific Binary64 :=
  ⟨fun m s e => ⟨roundToFloat64 (OfScientific.ofScientific m s e)⟩⟩

/-! ## The orchestration view of a trace -/

/-- The events that matter to the orchestration of one routine. -/
inductive Step where
  /-- An evaluation of `ros::ok()` and its value. -/
  | ok (alive : Bool)
  /-- One run of `resetBlock`. -/
  | reset
  /-- One batch of grasps submitted to the planning service, with its verdict. -/
  | pick (verdict : Bool)
  /-- Entry into the function `place`. -/
  | placeBegin
  /-- One batch of place locations submitted to the planning service, with its verdict. -/
  | place (verdict : Bool)
  /-- An answer of the retry controller that was obtained by sleeping or by reading a
  character from the operator. -/
  | retry (answer : Bool)
  /-- The completion message. -/
  | done
deriving DecidableEq

/-- The orchestration step that an event stands for, if any.  `resetBlock` is the only
publisher of collision blocks, `place` is the only writer of console lines named
`"place"`, and `promptUser` is the only function that sleeps or reads a character. -/
def Event.toStep {R : Type} : Event R → Option Step
  | Event.rosOk alive => some (Step.ok alive)
  | Event.publishCollisionBlock _ _ _ => some Step.reset
  | Event.moveGroupPick _ _ verdict => some (Step.pick verdict)
  | Event.log lvl name _ =>
    if lvl = LogLevel.warn ∧ name = "place" then some Step.placeBegin else none
  | Event.moveGroupPlace _ _ verdict => some (Step.place verdict)
  | Event.sleep _ => some (Step.retry true)
  | Event.cinRead input => some (Step.retry (decide (input ≠ 'n')))
  | Event.publishArmDone => some Step.done
  | _ => none

/-- The orchestration steps of a list of events, in order. -/
def steps {R : Type} (evs : List (Event R)) : List Step :=
  evs.filterMap Event.toStep

/-- Whether the list `l` begins with the list `pat`. -/
def startsWith : List Step → List Step → Bool
  | [], _ => true
  | _ :: _, [] => false
  | p :: ps, x :: xs => decide (p = x) && startsWith ps xs

/-- The number of positions of `l` at which the list `pat` occurs. -/
def countPattern (pat : List Step) : List Step → Nat
  | [] => 0
  | x :: xs => (if startsWith pat (x :: xs) then 1 else 0) + countPattern pat xs

/-- What follows the first occurrence of `pat` in `l`, if there is one. -/
def afterPattern (pat : List Step) : List Step → Option (List Step)
  | [] => none
  | x :: xs =>
    if startsWith pat (x :: xs) then some ((x :: xs).drop pat.length)
    else afterPattern pat xs

/-- A failed pick after which `promptUser`, with the process alive, answered retry. -/
def retriedPickFailure : List Step :=
  [Step.pick false, Step.ok true, Step.retry true]

/-- A failed pick after which `promptUser`, with the process alive, answered no-retry. -/
def abortedPickFailure : List Step :=
  [Step.pick false, Step.ok true, Step.retry false]

/-- The list `p` written `k` times in a row. -/
def repeatSteps : Nat → List Step → List Step
  | 0, _ => []
  | k + 1, p => p ++ repeatSteps k p

/-- One turn of the pick loop that ends in a retry. -/
def pickRetrySteps : List Step :=
  [Step.ok true, Step.pick false, Step.ok true, Step.retry true, Step.reset]

/-- The ways in which the pick loop can end. -/
def pickTails : List (List Step) :=
  [[Step.ok false],
   [Step.ok true, Step.pick true],
   [Step.ok true, Step.pick false, Step.ok false],
   [Step.ok true, Step.pick false, Step.ok true, Step.retry false]]

/-- One turn of the place loop that ends in a retry. -/
def placeRetrySteps : List Step :=
  [Step.ok true, Step.placeBegin, Step.place false, Step.ok true, Step.retry true]

/-- The ways in which the place loop can end. -/
def placeTails : List (List Step) :=
  [[Step.ok false],
   [Step.ok true, Step.placeBegin, Step.place true],
   [Step.ok true, Step.placeBegin, Step.place false, Step.ok false],
   [Step.ok true, Step.placeBegin, Step.place false, Step.ok true, Step.retry false]]

/-- The steps of a pick loop that returned. -/
def PickShape (l : List Step) : Prop :=
  ∃ k tp, tp ∈ pickTails ∧ l = repeatSteps k pickRetrySteps ++ tp

/-- The steps of a place loop that returned. -/
def PlaceShape (l : List Step) : Prop :=
  ∃ k tq, tq ∈ placeTails ∧ l = repeatSteps k placeRetrySteps ++ tq

/-- The steps of a routine that returned. -/
def RoutineShape (l : List Step) : Prop :=
  ∃ p q, PickShape p ∧ PlaceShape q ∧ l = Step.reset :: (p ++ (q ++ [Step.done]))

/-! ## Executable examples -/

/-- A rational stand-in for the C math library: `22/7` for `M_PI` and the Taylor
polynomials `x - x^3/6`, `1 - x^2/2` for `sin`, `cos`; the conversion to `float` is the
IEEE 754 rounding. -/
def demoLibm : Libm ℚ :=
  { pi := 22 / 7, sin := fun x => x - x * x * x / 6, cos := fun x => 1 - x * x / 2,
    toFloat32 := roundToFloat32 }

/-- An open-gripper posture. -/
def demoPosture : JointTrajectory ℚ :=
  { header := { seq := 0, stamp := 0, frame_id := "base_link" }
    joint_names := ["gripper_finger_joint"]
    points := [{ positions := [1], velocities := [], accelerations := [], effort := [],
                 time_from_start := 0 }] }

/-- Gripper parameters with base frame `frame`. -/
def demoGraspData (frame : String) : GraspData ℚ :=
  { base_link_ := frame
    ee_parent_link_ := "gripper_roll_link"
    ee_group_ := "gripper_group"
    pre_grasp_posture_ := demoPosture
    grasp_posture_ := { demoPosture with points := [] }
    approach_retreat_desired_dist_ := 6 / 10
    approach_retreat_min_dist_ := 4 / 10 }

/-- The settings of the program as it starts: manual mode, four seconds. -/
def demoSettings : Settings ℚ :=
  { grasp_data_ := demoGraspData "base_link", auto_reset_ := false, auto_reset_sec_ := 4 }

/-- An outside world in which the generator returns `grasps` and the other answers
follow the given scripts. -/
def scriptedEnv (alive picks places : Nat → Bool) (keys : Nat → Char)
    (grasps : List (Grasp ℚ)) : Env ℚ :=
  { rosOk := alive
    now := fun n => n
    generateBlockGrasps := fun _ _ _ => grasps
    pickVerdict := fun n _ _ => picks n
    placeVerdict := fun n _ _ => places n
    cin := keys }

/-- An outside world in which the process stays alive, every pick and every place succeeds,
the operator types `y`, and the generator returns no grasp. -/
def demoEnv : Env ℚ :=
  scriptedEnv (fun _ => true) (fun _ => true) (fun _ => true) (fun _ => 'y') []

/-- The math library in binary64: `M_PI` is the double nearest to `π`, the conversion to
`float` is the IEEE 754 rounding, and `sin`, `cos` are stand-ins, the rounded Taylor
polynomials `x - x^3/6` and `1 - x^2/2`. -/
def libm64 : Libm Binary64 :=
  { pi := ⟨884279719003555 / 281474976710656⟩
    sin := fun x => ⟨roundToFloat64 (x.val - x.val * x.val * x.val / 6)⟩
    cos := fun x => ⟨roundToFloat64 (1 - x.val * x.val / 2)⟩
    toFloat32 := fun x => ⟨roundToFloat32 x.val⟩ }

/-- Settings in binary64: manual mode, base frame `base_link`, approach and retreat
distances `0.6` and `0.4`. -/
def demoSettings64 : Settings Binary64 :=
  { grasp_data_ :=
      { base_link_ := "base_link"
        ee_parent_link_ := "gripper_roll_link"
        ee_group_ := "gripper_group"
        pre_grasp_posture_ :=
          { header := { seq := 0, stamp := 0, frame_id := "base_link" }
            joint_names := ["gripper_finger_joint"]
            points := [{ positions := [1], velocities := [], accelerations := [], effort := [],
                         time_from_start := 0 }] }
        grasp_posture_ :=
          { header := { seq := 0, stamp := 0, frame_id := "base_link" }
            joint_names := ["gripper_finger_joint"]
            points := [] }
        approach_retreat_desired_dist_ := 0.6
        approach_retreat_min_dist_ := 0.4 }
    auto_reset_ := false
    auto_reset_sec_ := 4 }

/-- An outside world in binary64 in which the process stays alive, every pick and every
place succeeds, the operator types `y`, and the generator returns no grasp. -/
def demoEnv64 : Env Binary64 :=
  { rosOk := fun _ => true
    now := fun n => n
    generateBlockGrasps := fun _ _ _ => []
    pickVerdict := fun _ _ _ => true
    placeVerdict := fun _ _ _ => true
    cin := fun _ => 'y' }

/-! ## Traces of the functions -/

theorem steps_append {R : Type} (a b : List (Event R)) : steps (a ++ b) = steps a ++ steps b := by
  simp [steps]

theorem steps_nil {R : Type} : steps ([] : List (Event R)) = [] := rfl

theorem steps_cons {R : Type} (e : Event R) (evs : List (Event R)) :
    steps (e :: evs) = (Event.toStep e).toList ++ steps evs := by
  cases h : Event.toStep e <;> simp [steps, List.filterMap_cons, h]

theorem rosOk_trace {R : Type} (env : Env R) (w : World R) :
    (rosOk env w).2.trace = w.trace ++ [Event.rosOk (rosOk env w).1] := rfl

theorem resetBlock_trace {R : Type} [LinearOrderedField R] (block : MetaBlock R) (w : World R) :
    ∃ evs, (resetBlock block w).trace = w.trace ++ evs ∧ steps evs = [Step.reset] :=
  ⟨[Event.cleanupACO block.name, Event.cleanupCO block.name,
    Event.publishCollisionBlock block.start_pose block.name BLOCK_SIZE],
   by simp [resetBlock, World.emit], by simp [steps, Event.toStep]⟩

theorem pick_trace {R : Type} (env : Env R) (cfg : Settings R) (p : Pose R) (n : String) (w : World R) :
    ∃ evs, (pick env cfg p n w).2.trace = w.trace ++ evs ∧
      steps evs = [Step.pick (pick env cfg p n w).1] := by
  refine ⟨(pick env cfg p n w).2.trace.drop w.trace.length, ?_, ?_⟩
  · simp [pick, World.emit]
  · simp [steps, Event.toStep, pick, World.emit]

theorem promptUser_trace {R : Type} (env : Env R) (cfg : Settings R) (w : World R) :
    ∃ evs, (promptUser env cfg w).2.trace = w.trace ++ evs ∧
      ((promptUser env cfg w).1 = false ∧ steps evs = [Step.ok false] ∨
       (promptUser env cfg w).1 = true ∧ steps evs = [Step.ok true, Step.retry true] ∨
       (promptUser env cfg w).1 = false ∧ steps evs = [Step.ok true, Step.retry false]) := by
  refine ⟨(promptUser env cfg w).2.trace.drop w.trace.length, ?_, ?_⟩
  · unfold promptUser rosOk
    cases hok : env.rosOk w.okCalls <;> cases hauto : cfg.auto_reset_ <;>
      by_cases hc : env.cin w.cinReads = 'n' <;> simp [World.emit, hc]
  · unfold promptUser rosOk
    cases hok : env.rosOk w.okCalls <;> cases hauto : cfg.auto_reset_ <;>
      by_cases hc : env.cin w.cinReads = 'n' <;> simp [World.emit, hc, steps, Event.toStep]

theorem placeLoop_trace {R : Type} [LinearOrderedField R] (env : Env R) (cfg : Settings R)
    (m : Libm R) (goal : Pose R) (header : Header) :
    ∀ (fuel : Nat) (angle : R) (w : World R) (locs : List (PlaceLocation R))
      (w' : World R) (out : List (PlaceLocation R)),
      placeLoop env cfg m goal header fuel angle w locs = some (w', out) →
      ∃ evs, w'.trace = w.trace ++ evs ∧ steps evs = [] := by
  intro fuel
  induction fuel with
  | zero => intro angle w locs w' out h; simp [placeLoop] at h
  | succ fuel ih =>
    intro angle w locs w' out h
    unfold placeLoop at h
    split at h
    · obtain ⟨evs, h1, h2⟩ := ih _ _ _ _ _ h
      refine ⟨w'.trace.drop w.trace.length, ?_, ?_⟩
      · rw [h1]; simp [placeLoopBody, rosTimeNow, World.emit]
      · rw [h1]; simp [placeLoopBody, rosTimeNow, World.emit, steps_cons, h2, Event.toStep]
    · simp only [Option.some.injEq, Prod.mk.injEq] at h
      exact ⟨[], by simp [h.1], rfl⟩

theorem place_trace {R : Type} [LinearOrderedField R] (env : Env R) (cfg : Settings R)
    (m : Libm R) (fuel : Nat) (goal : Pose R) (n : String) (w w' : World R) (v : Bool)
    (h : place env cfg m fuel goal n w = some (v, w')) :
    ∃ evs, w'.trace = w.trace ++ evs ∧ steps evs = [Step.placeBegin, Step.place v] := by
  unfold place at h
  simp only at h
  split at h
  · simp at h
  · rename_i w1 locs hloop
    obtain ⟨evs, h1, h2⟩ := placeLoop_trace env cfg m goal _ _ _ _ _ _ _ hloop
    simp only [Option.some.injEq, Prod.mk.injEq] at h
    obtain ⟨hv, hw⟩ := h
    refine ⟨w'.trace.drop w.trace.length, ?_, ?_⟩ <;> rw [← hw]
    · simp [World.emit, h1, rosTimeNow]
    · simp [World.emit, h1, rosTimeNow, steps_append, steps_cons, steps_nil, h2,
        Event.toStep]
      simpa [World.emit] using hv

theorem pickRetryLoop_shape {R : Type} [LinearOrderedField R] (env : Env R) (cfg : Settings R)
    (block : MetaBlock R) :
    ∀ (fuel : Nat) (w w' : World R), pickRetryLoop env cfg block fuel w = some w' →
      ∃ evs, w'.trace = w.trace ++ evs ∧ PickShape (steps evs) := by
  intro fuel
  induction fuel with
  | zero => intro w w' h; simp [pickRetryLoop] at h
  | succ fuel ih =>
    intro w w' h
    unfold pickRetryLoop at h
    have hok := rosOk_trace env w
    rcases hr : rosOk env w with ⟨alive, w1⟩
    rw [hr] at h hok
    simp only at h hok
    cases alive with
    | false =>
      simp only [Bool.not_false, if_true, Option.some.injEq] at h
      subst h
      exact ⟨_, hok, 0, [Step.ok false], by simp [pickTails],
        by simp [steps, Event.toStep, repeatSteps]⟩
    | true =>
      simp only [Bool.not_true, Bool.false_eq_true, if_false] at h
      obtain ⟨evp, hp1, hp2⟩ := pick_trace env cfg block.start_pose block.name w1
      rcases hpk : pick env cfg block.start_pose block.name w1 with ⟨picked, w2⟩
      rw [hpk] at h hp1 hp2
      simp only at h hp1 hp2
      cases picked with
      | true =>
        simp only [Bool.not_true, Bool.false_eq_true, if_false, Option.some.injEq] at h
        refine ⟨w'.trace.drop w.trace.length, ?_, 0,
          [Step.ok true, Step.pick true], ?_, ?_⟩
        · rw [← h]; simp [World.emit, hp1, hok]
        · simp [pickTails]
        · rw [← h]
          simp [World.emit, hp1, hok, steps_append, steps_cons, steps_nil, hp2, repeatSteps,
            Event.toStep]
      | false =>
        simp only [Bool.not_false, if_true] at h
        obtain ⟨evq, hq1, hq2⟩ := promptUser_trace env cfg
          (w2.emit (Event.log LogLevel.error "pick_place" "Pick failed."))
        rcases hpu : promptUser env cfg
          (w2.emit (Event.log LogLevel.error "pick_place" "Pick failed.")) with ⟨retry, w3⟩
        rw [hpu] at h hq1 hq2
        simp only at h hq1 hq2
        have hw3 : w3.trace = w.trace ++
            (Event.rosOk true :: (evp ++ (Event.log LogLevel.error "pick_place" "Pick failed."
              :: evq))) := by
          simp [hq1, World.emit, hp1, hok]
        have hst : steps (Event.rosOk true :: (evp ++
            (Event.log LogLevel.error "pick_place" "Pick failed." :: evq))) =
            Step.ok true :: Step.pick false :: steps evq := by
          have : (Event.rosOk true :: (evp ++
            (Event.log LogLevel.error "pick_place" "Pick failed." :: evq))) =
            [Event.rosOk true] ++ evp ++ [Event.log LogLevel.error "pick_place" "Pick failed."]
              ++ evq := by simp
          rw [this, steps_append, steps_append, steps_append, hp2]
          simp [steps, Event.toStep]
        cases retry with
        | false =>
          simp only [Bool.not_false, if_true, Option.some.injEq] at h
          subst h
          refine ⟨_, hw3, 0, Step.ok true :: Step.pick false :: steps evq, ?_, ?_⟩
          · rcases hq2 with ⟨_, hs⟩ | ⟨hc, _⟩ | ⟨_, hs⟩
            · rw [hs]; simp [pickTails]
            · simp at hc
            · rw [hs]; simp [pickTails]
          · rw [hst]; simp only [repeatSteps, List.nil_append]
        | true =>
          simp only [Bool.not_true, Bool.false_eq_true, if_false] at h
          have hs : steps evq = [Step.ok true, Step.retry true] := by
            rcases hq2 with ⟨hc, _⟩ | ⟨_, hs⟩ | ⟨hc, _⟩
            · simp at hc
            · exact hs
            · simp at hc
          obtain ⟨evr, hr1, hr2⟩ := resetBlock_trace block w3
          obtain ⟨evs, he1, k, tp, htp, he2⟩ := ih _ _ h
          refine ⟨(Event.rosOk true :: (evp ++
            (Event.log LogLevel.error "pick_place" "Pick failed." :: evq))) ++ evr ++ evs,
            ?_, k + 1, tp, htp, ?_⟩
          · rw [he1, hr1, hw3]; simp
          · rw [steps_append, steps_append, hst, hs, hr2, he2]
            simp [repeatSteps, pickRetrySteps]


theorem placeRetryLoop_shape {R : Type} [LinearOrderedField R] (env : Env R)
    (cfg : Settings R) (m : Libm R) (block : MetaBlock R) :
    ∀ (fuel : Nat) (w w' : World R), placeRetryLoop env cfg m block fuel w = some w' →
      ∃ evs, w'.trace = w.trace ++ evs ∧ PlaceShape (steps evs) := by
  intro fuel
  induction fuel with
  | zero => intro w w' h; simp [placeRetryLoop] at h
  | succ fuel ih =>
    intro w w' h
    unfold placeRetryLoop at h
    have hok := rosOk_trace env w
    rcases hr : rosOk env w with ⟨alive, w1⟩
    rw [hr] at h hok
    simp only at h hok
    cases alive with
    | false =>
      simp only [Bool.not_false, if_true, Option.some.injEq] at h
      subst h
      exact ⟨_, hok, 0, [Step.ok false], by simp [placeTails],
        by simp [steps, Event.toStep, repeatSteps]⟩
    | true =>
      simp only [Bool.not_true, Bool.false_eq_true, if_false] at h
      split at h
      · simp at h
      · rename_i placed w2 hpl
        obtain ⟨evp, hp1, hp2⟩ := place_trace env cfg m _ _ _ _ _ _ hpl
        cases placed with
        | true =>
          simp only [Bool.not_true, Bool.false_eq_true, if_false, Option.some.injEq] at h
          refine ⟨w'.trace.drop w.trace.length, ?_, 0,
            [Step.ok true, Step.placeBegin, Step.place true], ?_, ?_⟩
          · rw [← h]; simp [World.emit, hp1, hok]
          · simp [placeTails]
          · rw [← h]
            simp [World.emit, hp1, hok, steps_append, steps_cons, steps_nil, hp2, repeatSteps,
              Event.toStep]
        | false =>
          simp only [Bool.not_false, if_true] at h
          obtain ⟨evq, hq1, hq2⟩ := promptUser_trace env cfg
            (w2.emit (Event.log LogLevel.error "pick_place" "Place failed."))
          rcases hpu : promptUser env cfg
            (w2.emit (Event.log LogLevel.error "pick_place" "Place failed.")) with ⟨retry, w3⟩
          rw [hpu] at h hq1 hq2
          simp only at h hq1 hq2
          have hw3 : w3.trace = w.trace ++
              (Event.rosOk true :: (evp ++ (Event.log LogLevel.error "pick_place" "Place failed."
                :: evq))) := by
            simp [hq1, World.emit, hp1, hok]
          have hst : steps (Event.rosOk true :: (evp ++
              (Event.log LogLevel.error "pick_place" "Place failed." :: evq))) =
              Step.ok true :: Step.placeBegin :: Step.place false :: steps evq := by
            simp [steps_append, steps_cons, hp2, Event.toStep]
          cases retry with
          | false =>
            simp only [Bool.not_false, if_true, Option.some.injEq] at h
            subst h
            refine ⟨_, hw3, 0, Step.ok true :: Step.placeBegin :: Step.place false :: steps evq,
              ?_, ?_⟩
            · rcases hq2 with ⟨_, hs⟩ | ⟨hc, _⟩ | ⟨_, hs⟩
              · rw [hs]; simp [placeTails]
              · simp at hc
              · rw [hs]; simp [placeTails]
            · rw [hst]; simp only [repeatSteps, List.nil_append]
          | true =>
            simp only [Bool.not_true, Bool.false_eq_true, if_false] at h
            have hs : steps evq = [Step.ok true, Step.retry true] := by
              rcases hq2 with ⟨hc, _⟩ | ⟨_, hs⟩ | ⟨hc, _⟩
              · simp at hc
              · exact hs
              · simp at hc
            obtain ⟨evs, he1, k, tq, htq, he2⟩ := ih _ _ h
            refine ⟨(Event.rosOk true :: (evp ++
              (Event.log LogLevel.error "pick_place" "Place failed." :: evq))) ++ evs,
              ?_, k + 1, tq, htq, ?_⟩
            · rw [he1, hw3]; simp
            · rw [steps_append, hst, hs, he2]
              simp [repeatSteps, placeRetrySteps]

theorem startRoutine_shape {R : Type} [LinearOrderedField R] (env : Env R) (cfg : Settings R)
    (m : Libm R) (fuel : Nat) (w w' : World R)
    (h : startRoutine env cfg m fuel w = some w') :
    ∃ evs, w'.trace = w.trace ++ evs ∧ RoutineShape (steps evs) := by
  unfold startRoutine at h
  simp only at h
  split at h
  · simp at h
  · rename_i w1 hpick
    split at h
    · simp at h
    · rename_i w2 hplace
      obtain ⟨evp, hp1, hp2⟩ := pickRetryLoop_shape env cfg _ _ _ _ hpick
      obtain ⟨evq, hq1, hq2⟩ := placeRetryLoop_shape env cfg m _ _ _ _ hplace
      simp only [Option.some.injEq] at h
      refine ⟨w'.trace.drop w.trace.length, ?_, steps evp, steps evq, hp2, hq2, ?_⟩
      · rw [← h]; simp [World.emit, hq1, hp1, resetBlock]
      · rw [← h]
        simp [World.emit, hq1, hp1, resetBlock, steps_append, steps_cons, steps_nil,
          Event.toStep]

/-! ## Lists of steps -/

theorem mem_repeatSteps {x : Step} {p : List Step} :
    ∀ {k : Nat}, x ∈ repeatSteps k p → x ∈ p
  | 0, h => by simp [repeatSteps] at h
  | k + 1, h => by
    simp only [repeatSteps, List.mem_append] at h
    rcases h with h | h
    · exact h
    · exact mem_repeatSteps h

theorem count_repeatSteps (x : Step) (p : List Step) :
    ∀ k : Nat, (repeatSteps k p).count x = k * p.count x
  | 0 => by simp [repeatSteps]
  | k + 1 => by
    simp only [repeatSteps, List.count_append, count_repeatSteps x p k]
    ring

theorem mem_of_mem_dropWhile {x : Step} (f : Step → Bool) :
    ∀ {l : List Step}, x ∈ l.dropWhile f → x ∈ l
  | [], h => by simp at h
  | a :: l, h => by
    rw [List.dropWhile_cons] at h
    split at h
    · exact List.mem_cons_of_mem _ (mem_of_mem_dropWhile f h)
    · exact h

theorem dropWhile_append_of_all (f : Step → Bool) (b : List Step) :
    ∀ (a : List Step), (∀ x ∈ a, f x = true) → (a ++ b).dropWhile f = b.dropWhile f
  | [], _ => rfl
  | x :: a, h => by
    have hx : f x = true := h x (List.mem_cons_self _ _)
    have ha : ∀ y ∈ a, f y = true := fun y hy => h y (List.mem_cons_of_mem _ hy)
    simp [List.dropWhile_cons, hx, dropWhile_append_of_all f b a ha]

theorem countPattern_of_not_mem (pat : List Step) :
    ∀ (l : List Step), Step.pick false ∉ l → countPattern (Step.pick false :: pat) l = 0
  | [], _ => rfl
  | x :: l, h => by
    have hx : ¬ Step.pick false = x := fun e => h (e ▸ List.mem_cons_self _ _)
    have hl : Step.pick false ∉ l := fun e => h (List.mem_cons_of_mem _ e)
    simp [countPattern, startsWith, hx, countPattern_of_not_mem pat l hl]

theorem afterPattern_of_not_mem (pat : List Step) :
    ∀ (l : List Step), Step.pick false ∉ l → afterPattern (Step.pick false :: pat) l = none
  | [], _ => rfl
  | x :: l, h => by
    have hx : ¬ Step.pick false = x := fun e => h (e ▸ List.mem_cons_self _ _)
    have hl : Step.pick false ∉ l := fun e => h (List.mem_cons_of_mem _ e)
    simp [afterPattern, startsWith, hx, afterPattern_of_not_mem pat l hl]

/-- Every step of a place loop is one of these. -/
theorem placeShape_mem {q : List Step} (hq : PlaceShape q) {x : Step} (hx : x ∈ q) :
    x = Step.ok true ∨ x = Step.ok false ∨ x = Step.placeBegin ∨ x = Step.place true ∨
      x = Step.place false ∨ x = Step.retry true ∨ x = Step.retry false := by
  obtain ⟨k, tq, htq, rfl⟩ := hq
  rcases List.mem_append.1 hx with h | h
  · have key : ∀ y ∈ placeRetrySteps,
        y = Step.ok true ∨ y = Step.ok false ∨ y = Step.placeBegin ∨ y = Step.place true ∨
          y = Step.place false ∨ y = Step.retry true ∨ y = Step.retry false := by decide
    exact key x (mem_repeatSteps h)
  · have key : ∀ t ∈ placeTails, ∀ y ∈ t,
        y = Step.ok true ∨ y = Step.ok false ∨ y = Step.placeBegin ∨ y = Step.place true ∨
          y = Step.place false ∨ y = Step.retry true ∨ y = Step.retry false := by decide
    exact key tq htq x h

/-- Every step of a pick loop is one of these. -/
theorem pickShape_mem {p : List Step} (hp : PickShape p) {x : Step} (hx : x ∈ p) :
    x = Step.ok true ∨ x = Step.ok false ∨ x = Step.pick true ∨ x = Step.pick false ∨
      x = Step.retry true ∨ x = Step.retry false ∨ x = Step.reset := by
  obtain ⟨k, tp, htp, rfl⟩ := hp
  rcases List.mem_append.1 hx with h | h
  · have key : ∀ y ∈ pickRetrySteps,
        y = Step.ok true ∨ y = Step.ok false ∨ y = Step.pick true ∨ y = Step.pick false ∨
          y = Step.retry true ∨ y = Step.retry false ∨ y = Step.reset := by decide
    exact key x (mem_repeatSteps h)
  · have key : ∀ t ∈ pickTails, ∀ y ∈ t,
        y = Step.ok true ∨ y = Step.ok false ∨ y = Step.pick true ∨ y = Step.pick false ∨
          y = Step.retry true ∨ y = Step.retry false ∨ y = Step.reset := by decide
    exact key tp htp x h

theorem placeShape_not_mem_closing {q : List Step} (hq : PlaceShape q) {x : Step}
    (h1 : x ≠ Step.done) (h2 : ∀ b, x ≠ Step.ok b) (h3 : x ≠ Step.placeBegin)
    (h4 : ∀ b, x ≠ Step.place b) (h5 : ∀ b, x ≠ Step.retry b) : x ∉ q ++ [Step.done] := by
  intro hx
  rcases List.mem_append.1 hx with h | h
  · rcases placeShape_mem hq h with e | e | e | e | e | e | e
    · exact h2 _ e
    · exact h2 _ e
    · exact h3 e
    · exact h4 _ e
    · exact h4 _ e
    · exact h5 _ e
    · exact h5 _ e
  · exact h1 (List.mem_singleton.1 h)

theorem placeShape_count_reset {q : List Step} (hq : PlaceShape q) :
    q.count Step.reset = 0 := by
  apply List.count_eq_zero_of_not_mem
  intro h
  rcases placeShape_mem hq h with e | e | e | e | e | e | e <;> simp at e

theorem placeShape_count_done {q : List Step} (hq : PlaceShape q) :
    q.count Step.done = 0 := by
  apply List.count_eq_zero_of_not_mem
  intro h
  rcases placeShape_mem hq h with e | e | e | e | e | e | e <;> simp at e

theorem pickShape_count_done {p : List Step} (hp : PickShape p) :
    p.count Step.done = 0 := by
  apply List.count_eq_zero_of_not_mem
  intro h
  rcases pickShape_mem hp h with e | e | e | e | e | e | e <;> simp at e

/-- A place loop that returned either saw the process dead at once, or entered `place`. -/
theorem placeShape_head {q : List Step} (hq : PlaceShape q) :
    q = [Step.ok false] ∨ ∃ rest, q = Step.ok true :: Step.placeBegin :: rest := by
  obtain ⟨k, tq, htq, rfl⟩ := hq
  cases k with
  | zero =>
    simp only [placeTails, List.mem_cons, List.mem_singleton, List.not_mem_nil, or_false] at htq
    rcases htq with rfl | rfl | rfl | rfl <;> simp [repeatSteps]
  | succ k => right; simp [repeatSteps, placeRetrySteps]

theorem countPattern_pickRetry (pat : List Step)
    (hpat : pat = retriedPickFailure ∨ pat = retriedPickFailure ++ [Step.reset])
    (rest : List Step) :
    ∀ k : Nat, countPattern pat (repeatSteps k pickRetrySteps ++ rest) =
      k + countPattern pat rest
  | 0 => by simp [repeatSteps]
  | k + 1 => by
    have ih := countPattern_pickRetry pat hpat rest k
    rcases hpat with rfl | rfl <;>
      simp [repeatSteps, pickRetrySteps, retriedPickFailure, countPattern, startsWith] at ih ⊢ <;>
      rw [ih] <;> ring

theorem countPattern_pickTail (pat : List Step)
    (hpat : pat = retriedPickFailure ∨ pat = retriedPickFailure ++ [Step.reset])
    (rest tp : List Step) (htp : tp ∈ pickTails) :
    countPattern pat (tp ++ rest) = countPattern pat rest := by
  simp only [pickTails, List.mem_cons, List.mem_singleton, List.not_mem_nil, or_false] at htp
  rcases htp with rfl | rfl | rfl | rfl <;> rcases hpat with rfl | rfl <;>
    simp [retriedPickFailure, countPattern, startsWith]

theorem afterPattern_pickRetry (rest : List Step) :
    ∀ k : Nat, afterPattern abortedPickFailure (repeatSteps k pickRetrySteps ++ rest) =
      afterPattern abortedPickFailure rest
  | 0 => by simp [repeatSteps]
  | k + 1 => by
    have ih := afterPattern_pickRetry rest k
    simp [repeatSteps, pickRetrySteps, abortedPickFailure, afterPattern, startsWith] at ih ⊢
    exact ih

/-! ## The orchestration of `startRoutine` -/

theorem routine_steps {R : Type} [LinearOrderedField R] (env : Env R) (cfg : Settings R)
    (m : Libm R) (fuel : Nat) (w w' : World R) (evs : List (Event R))
    (h : startRoutine env cfg m fuel w = some w') (htr : w'.trace = w.trace ++ evs) :
    RoutineShape (steps evs) := by
  obtain ⟨evs0, h0, hs⟩ := startRoutine_shape env cfg m fuel w w' h
  have : evs = evs0 := List.append_cancel_left (htr.symm.trans h0)
  exact this ▸ hs

/-- C1: in every invocation of `startRoutine` that returns, the completion message is
published exactly once, and it is the last orchestration step of the invocation: no reset,
pick attempt, place attempt or retry decision comes after it. -/
theorem startRoutine_publishes_done_once {R : Type} [LinearOrderedField R] (env : Env R)
    (cfg : Settings R) (m : Libm R) (fuel : Nat) (w w' : World R) (evs : List (Event R))
    (h : startRoutine env cfg m fuel w = some w') (htr : w'.trace = w.trace ++ evs) :
    (steps evs).count Step.done = 1 ∧
    ∃ pre, steps evs = pre ++ [Step.done] ∧ Step.done ∉ pre := by
  have hl := routine_steps env cfg m fuel w w' evs h htr
  generalize steps evs = l at hl ⊢
  obtain ⟨p, q, hp, hq, rfl⟩ := hl
  refine ⟨?_, Step.reset :: (p ++ q), by simp, ?_⟩
  · simp [List.count_cons, List.count_append, pickShape_count_done hp,
      placeShape_count_done hq]
  · intro hmem
    rcases List.mem_cons.1 hmem with e | hmem
    · simp at e
    · rcases List.mem_append.1 hmem with hmem | hmem
      · exact absurd (List.count_pos_iff.2 hmem) (by simp [pickShape_count_done hp])
      · exact absurd (List.count_pos_iff.2 hmem) (by simp [placeShape_count_done hq])

/-- C1, run on an example: the pick succeeds at once, the first place fails, the operator
types `y`, the second place succeeds. -/
theorem startRoutine_publishes_done_once_witness :
    ∃ w' : World ℚ,
      startRoutine (scriptedEnv (fun _ => true) (fun _ => true) (fun n => decide (1 ≤ n))
        (fun _ => 'y') []) demoSettings demoLibm 6 (World.start ℚ) = some w' ∧
      w'.trace = (World.start ℚ).trace ++ w'.trace ∧
      (steps w'.trace).count Step.done = 1 ∧
      ∃ pre, steps w'.trace = pre ++ [Step.done] ∧ Step.done ∉ pre := by
  have hrun : ∃ w' : World ℚ,
      startRoutine (scriptedEnv (fun _ => true) (fun _ => true) (fun n => decide (1 ≤ n))
        (fun _ => 'y') []) demoSettings demoLibm 6 (World.start ℚ) = some w' := by
    simp [startRoutine, pickRetryLoop, placeRetryLoop, place, placeLoop, placeLoopBody, pick,
      promptUser,
      rosOk, rosTimeNow, resetBlock, World.emit, World.start, scriptedEnv, demoSettings,
      demoLibm, setAllowedTouchLoop]
    norm_num
  obtain ⟨w', hw'⟩ := hrun
  exact ⟨w', hw', by simp [World.start],
    startRoutine_publishes_done_once _ _ _ _ _ _ _ hw' (by simp [World.start])⟩

/-- C2, counterexample to the claim as stated: the pick fails, the process is alive, the operator
types `n`, and `place` is still entered and submits a batch to the planning service
before the completion message is published. -/
theorem startRoutine_places_after_pick_abort :
    ∃ w' : World ℚ,
      startRoutine (scriptedEnv (fun _ => true) (fun _ => false) (fun _ => true)
        (fun _ => 'n') []) demoSettings demoLibm 6 (World.start ℚ) = some w' ∧
      steps w'.trace =
        [Step.reset, Step.ok true, Step.pick false, Step.ok true, Step.retry false,
         Step.ok true, Step.placeBegin, Step.place true, Step.done] ∧
      afterPattern abortedPickFailure (steps w'.trace) =
        some [Step.ok true, Step.placeBegin, Step.place true, Step.done] := by
  have hrun : ∃ w' : World ℚ,
      startRoutine (scriptedEnv (fun _ => true) (fun _ => false) (fun _ => true)
        (fun _ => 'n') []) demoSettings demoLibm 6 (World.start ℚ) = some w' ∧
      steps w'.trace =
        [Step.reset, Step.ok true, Step.pick false, Step.ok true, Step.retry false,
         Step.ok true, Step.placeBegin, Step.place true, Step.done] := by
    simp [startRoutine, pickRetryLoop, placeRetryLoop, place, placeLoop, placeLoopBody, pick,
      promptUser,
      rosOk, rosTimeNow, resetBlock, World.emit, World.start, scriptedEnv, demoSettings,
      demoLibm, setAllowedTouchLoop]
    norm_num
    simp [steps_cons, steps_nil, Event.toStep]
  obtain ⟨w', hw', hs⟩ := hrun
  refine ⟨w', hw', hs, ?_⟩
  rw [hs]
  decide

/-- C2, amended: when a pick fails and `promptUser`, with the process alive, answers
no-retry, the pick loop is left: no further pick attempt and no scene reset follows, and
if the routine returns the completion message is published exactly once, as the last step.
The place loop is not skipped: what follows is either a dead `ros::ok()` and the
completion message, or a live `ros::ok()` and an entry into `place`. -/
theorem startRoutine_after_pick_abort {R : Type} [LinearOrderedField R] (env : Env R)
    (cfg : Settings R) (m : Libm R) (fuel : Nat) (w w' : World R) (evs : List (Event R))
    (post : List Step)
    (h : startRoutine env cfg m fuel w = some w') (htr : w'.trace = w.trace ++ evs)
    (hab : afterPattern abortedPickFailure (steps evs) = some post) :
    (∀ v, Step.pick v ∉ post) ∧ Step.reset ∉ post ∧
    post.count Step.done = 1 ∧ post.getLast? = some Step.done ∧
    (post = [Step.ok false, Step.done] ∨
      ∃ rest, post = Step.ok true :: Step.placeBegin :: rest) := by
  have hl := routine_steps env cfg m fuel w w' evs h htr
  generalize steps evs = l at hl hab ⊢
  obtain ⟨p, q, ⟨k, tp, htp, rfl⟩, hq, rfl⟩ := hl
  have hq0 : Step.pick false ∉ q ++ [Step.done] :=
    placeShape_not_mem_closing hq (by simp) (by simp) (by simp) (by simp) (by simp)
  have hnone : afterPattern abortedPickFailure (q ++ [Step.done]) = none :=
    afterPattern_of_not_mem _ _ hq0
  have h1 : afterPattern abortedPickFailure
      (Step.reset :: (repeatSteps k pickRetrySteps ++ tp ++ (q ++ [Step.done]))) =
      afterPattern abortedPickFailure (tp ++ (q ++ [Step.done])) := by
    have e : ∀ X, afterPattern abortedPickFailure (Step.reset :: X) =
        afterPattern abortedPickFailure X := by
      intro X; simp [afterPattern, startsWith, abortedPickFailure]
    rw [e, List.append_assoc, afterPattern_pickRetry]
  rw [h1] at hab
  simp only [pickTails, List.mem_cons, List.mem_singleton, List.not_mem_nil, or_false] at htp
  have hpost : post = q ++ [Step.done] := by
    rcases htp with rfl | rfl | rfl | rfl
    · simp [afterPattern, startsWith, abortedPickFailure] at hab hnone
      rw [hnone] at hab; cases hab
    · simp [afterPattern, startsWith, abortedPickFailure] at hab hnone
      rw [hnone] at hab; cases hab
    · simp [afterPattern, startsWith, abortedPickFailure] at hab hnone
      rw [hnone] at hab; cases hab
    · simp [afterPattern, startsWith, abortedPickFailure] at hab
      exact hab.symm
  subst hpost
  refine ⟨fun v => ?_, ?_, ?_, by simp, ?_⟩
  · exact placeShape_not_mem_closing hq (by simp) (by simp) (by simp) (by simp) (by simp)
  · exact placeShape_not_mem_closing hq (by simp) (by simp) (by simp) (by simp) (by simp)
  · simp [List.count_append, placeShape_count_done hq]
  · rcases placeShape_head hq with rfl | ⟨rest, rfl⟩
    · left; rfl
    · right; exact ⟨rest ++ [Step.done], by simp⟩

/-- C2 amended, run on an example: the first pick fails and the operator types `y`, the
second pick fails and the operator types `n`, the place fails and the operator types `n`. -/
theorem startRoutine_after_pick_abort_witness :
    ∃ (w' : World ℚ) (post : List Step),
      startRoutine (scriptedEnv (fun _ => true) (fun _ => false) (fun _ => false)
        (fun n => if n = 0 then 'y' else 'n') []) demoSettings demoLibm 6 (World.start ℚ)
        = some w' ∧
      w'.trace = (World.start ℚ).trace ++ w'.trace ∧
      afterPattern abortedPickFailure (steps w'.trace) = some post ∧
      ((∀ v, Step.pick v ∉ post) ∧ Step.reset ∉ post ∧
        post.count Step.done = 1 ∧ post.getLast? = some Step.done ∧
        (post = [Step.ok false, Step.done] ∨
          ∃ rest, post = Step.ok true :: Step.placeBegin :: rest)) := by
  have hrun : ∃ w' : World ℚ,
      startRoutine (scriptedEnv (fun _ => true) (fun _ => false) (fun _ => false)
        (fun n => if n = 0 then 'y' else 'n') []) demoSettings demoLibm 6 (World.start ℚ)
        = some w' ∧
      steps w'.trace =
        [Step.reset, Step.ok true, Step.pick false, Step.ok true, Step.retry true, Step.reset,
         Step.ok true, Step.pick false, Step.ok true, Step.retry false,
         Step.ok true, Step.placeBegin, Step.place false, Step.ok true, Step.retry false,
         Step.done] := by
    simp [startRoutine, pickRetryLoop, placeRetryLoop, place, placeLoop, placeLoopBody, pick,
      promptUser,
      rosOk, rosTimeNow, resetBlock, World.emit, World.start, scriptedEnv, demoSettings,
      demoLibm, setAllowedTouchLoop]
    norm_num
    simp [steps_cons, steps_nil, Event.toStep]
  obtain ⟨w', hw', hs⟩ := hrun
  have hab : afterPattern abortedPickFailure (steps w'.trace) =
      some [Step.ok true, Step.placeBegin, Step.place false, Step.ok true, Step.retry false,
        Step.done] := by
    rw [hs]; decide
  exact ⟨w', _, hw', by simp [World.start], hab,
    startRoutine_after_pick_abort _ _ _ _ _ _ _ _ hw' (by simp [World.start]) hab⟩

/-- C8: in every invocation of `startRoutine` that returns, the number of scene resets is
one plus the number of failed picks after which `promptUser` answered retry; the first
step of the invocation is a reset, every retried pick failure is followed at once by a
reset, and no reset comes after the first entry into `place`. -/
theorem startRoutine_reset_count {R : Type} [LinearOrderedField R] (env : Env R)
    (cfg : Settings R) (m : Libm R) (fuel : Nat) (w w' : World R) (evs : List (Event R))
    (h : startRoutine env cfg m fuel w = some w') (htr : w'.trace = w.trace ++ evs) :
    (steps evs).count Step.reset = 1 + countPattern retriedPickFailure (steps evs) ∧
    countPattern (retriedPickFailure ++ [Step.reset]) (steps evs) =
      countPattern retriedPickFailure (steps evs) ∧
    (steps evs).head? = some Step.reset ∧
    Step.reset ∉ (steps evs).dropWhile (fun s => decide (s ≠ Step.placeBegin)) := by
  have hl := routine_steps env cfg m fuel w w' evs h htr
  generalize steps evs = l at hl ⊢
  obtain ⟨p, q, hp, hq, rfl⟩ := hl
  have hq0 : Step.pick false ∉ q ++ [Step.done] :=
    placeShape_not_mem_closing hq (by simp) (by simp) (by simp) (by simp) (by simp)
  have hqr : Step.reset ∉ q ++ [Step.done] :=
    placeShape_not_mem_closing hq (by simp) (by simp) (by simp) (by simp) (by simp)
  have hcount : ∀ pat, pat = retriedPickFailure ∨ pat = retriedPickFailure ++ [Step.reset] →
      ∀ k tp, tp ∈ pickTails →
      countPattern pat (Step.reset :: (repeatSteps k pickRetrySteps ++ tp ++
        (q ++ [Step.done]))) = k := by
    intro pat hpat k tp htp
    have h0 : countPattern pat (q ++ [Step.done]) = 0 := by
      rcases hpat with rfl | rfl
      · exact countPattern_of_not_mem _ _ hq0
      · exact countPattern_of_not_mem _ _ hq0
    have h1 : countPattern pat (Step.reset :: (repeatSteps k pickRetrySteps ++ tp ++
        (q ++ [Step.done]))) = countPattern pat (repeatSteps k pickRetrySteps ++ tp ++
        (q ++ [Step.done])) := by
      rcases hpat with rfl | rfl <;> simp [countPattern, startsWith, retriedPickFailure]
    rw [h1, List.append_assoc, countPattern_pickRetry pat hpat, countPattern_pickTail pat hpat _ _ htp,
      h0]
    rfl
  obtain ⟨k, tp, htp, rfl⟩ := hp
  have htr : tp.count Step.reset = 0 := by
    have key : ∀ t ∈ pickTails, t.count Step.reset = 0 := by decide
    exact key tp htp
  refine ⟨?_, ?_, rfl, ?_⟩
  · rw [hcount _ (Or.inl rfl) k tp htp]
    simp [List.count_cons, List.count_append, count_repeatSteps, htr,
      placeShape_count_reset hq, pickRetrySteps]
    ring
  · rw [hcount _ (Or.inl rfl) k tp htp, hcount _ (Or.inr rfl) k tp htp]
  · intro hmem
    have hall : ∀ x ∈ Step.reset :: (repeatSteps k pickRetrySteps ++ tp),
        (fun s => decide (s ≠ Step.placeBegin)) x = true := by
      intro x hx
      rcases List.mem_cons.1 hx with e | hx
      · simp [e]
      · rcases pickShape_mem ⟨k, tp, htp, rfl⟩ hx with e | e | e | e | e | e | e <;> simp [e]
    have hsplit : Step.reset :: (repeatSteps k pickRetrySteps ++ tp ++ (q ++ [Step.done])) =
        (Step.reset :: (repeatSteps k pickRetrySteps ++ tp)) ++ (q ++ [Step.done]) := by simp
    rw [hsplit, dropWhile_append_of_all _ _ _ hall] at hmem
    exact hqr (mem_of_mem_dropWhile _ hmem)

/-- C8, run on an example in auto mode: the first two picks fail, the third succeeds, the
first place fails and the second succeeds; there are three resets. -/
theorem startRoutine_reset_count_witness :
    ∃ w' : World ℚ,
      startRoutine (scriptedEnv (fun _ => true) (fun n => decide (2 ≤ n))
        (fun n => decide (1 ≤ n)) (fun _ => 'y') [])
        { demoSettings with auto_reset_ := true } demoLibm 6 (World.start ℚ) = some w' ∧
      w'.trace = (World.start ℚ).trace ++ w'.trace ∧
      (steps w'.trace).count Step.reset = 3 ∧
      ((steps w'.trace).count Step.reset = 1 + countPattern retriedPickFailure (steps w'.trace) ∧
        countPattern (retriedPickFailure ++ [Step.reset]) (steps w'.trace) =
          countPattern retriedPickFailure (steps w'.trace) ∧
        (steps w'.trace).head? = some Step.reset ∧
        Step.reset ∉ (steps w'.trace).dropWhile (fun s => decide (s ≠ Step.placeBegin))) := by
  have hrun : ∃ w' : World ℚ,
      startRoutine (scriptedEnv (fun _ => true) (fun n => decide (2 ≤ n))
        (fun n => decide (1 ≤ n)) (fun _ => 'y') [])
        { demoSettings with auto_reset_ := true } demoLibm 6 (World.start ℚ) = some w' ∧
      (steps w'.trace).count Step.reset = 3 := by
    simp [startRoutine, pickRetryLoop, placeRetryLoop, place, placeLoop, placeLoopBody, pick,
      promptUser,
      rosOk, rosTimeNow, resetBlock, World.emit, World.start, scriptedEnv, demoSettings,
      demoLibm, setAllowedTouchLoop]
    norm_num
    simp [steps_cons, steps_nil, Event.toStep]
  obtain ⟨w', hw', hs⟩ := hrun
  exact ⟨w', hw', by simp [World.start], hs,
    startRoutine_reset_count _ _ _ _ _ _ _ hw' (by simp [World.start])⟩

/-! ## `pick` and `promptUser` -/

theorem modify_length_append {α : Type} (f : α → α) (a : α) (rest : List α) :
    ∀ pre : List α, (pre ++ a :: rest).modify f pre.length = pre ++ f a :: rest
  | [] => by simp
  | b :: pre => by simp [List.modify_succ_cons, modify_length_append f a rest pre]

theorem setAllowedTouchLoop_append {R : Type} (allowed : List String) :
    ∀ (n i : Nat) (pre rest : List (Grasp R)), pre.length = i → rest.length = n →
      setAllowedTouchLoop allowed n i (pre ++ rest) =
        pre ++ rest.map (fun g => { g with allowed_touch_objects := allowed })
  | 0, _, pre, rest, _, hn => by
    have : rest = [] := List.length_eq_zero.1 hn
    subst this
    simp [setAllowedTouchLoop]
  | n + 1, i, pre, rest, hi, hn => by
    cases rest with
    | nil => simp at hn
    | cons g rest =>
      have hn' : rest.length = n := by simpa using hn
      subst hi
      rw [setAllowedTouchLoop, modify_length_append]
      have := setAllowedTouchLoop_append allowed n (pre.length + 1)
        (pre ++ [{ g with allowed_touch_objects := allowed }]) rest (by simp) hn'
      simpa using this

theorem setAllowedTouchLoop_eq_map {R : Type} (allowed : List String) (gs : List (Grasp R)) :
    setAllowedTouchLoop allowed gs.length 0 gs =
      gs.map (fun g => { g with allowed_touch_objects := allowed }) := by
  simpa using setAllowedTouchLoop_append allowed gs.length 0 [] gs rfl rfl

/-- C5: whatever list `gs` the grasp generator returns, `pick` publishes `gs` for display
and then hands to `move_group_->pick` the list that has, at every index, the grasp of `gs`
with `allowed_touch_objects` replaced by `["Block1", "Block2", "Block3", "Block4"]` and
every other field as it was; the list has the length and order of `gs`, and `pick` returns
the verdict of that call. -/
theorem pick_hands_over_touch_lists {R : Type} (env : Env R) (cfg : Settings R)
    (block_pose : Pose R) (block_name : String) (w : World R) :
    ∃ handed : List (Grasp R),
      (pick env cfg block_pose block_name w).2.trace = w.trace ++
        [Event.generateBlockGrasps block_pose,
         Event.publishGrasps (env.generateBlockGrasps w.graspCalls block_pose cfg.grasp_data_)
           cfg.grasp_data_.ee_parent_link_,
         Event.moveGroupPick block_name handed (pick env cfg block_pose block_name w).1] ∧
      (pick env cfg block_pose block_name w).1 = env.pickVerdict w.pickCalls block_name handed ∧
      handed.length = (env.generateBlockGrasps w.graspCalls block_pose cfg.grasp_data_).length ∧
      (∀ (i : Nat) (g : Grasp R),
        (env.generateBlockGrasps w.graspCalls block_pose cfg.grasp_data_)[i]? = some g →
        handed[i]? = some
          { g with allowed_touch_objects := ["Block1", "Block2", "Block3", "Block4"] }) ∧
      (∀ h ∈ handed, h.allowed_touch_objects = ["Block1", "Block2", "Block3", "Block4"] ∧
        h.allowed_touch_objects ≠ [] ∧
        ∀ b ∈ ["Block1", "Block2", "Block3", "Block4"], b ∈ h.allowed_touch_objects) := by
  refine ⟨(env.generateBlockGrasps w.graspCalls block_pose cfg.grasp_data_).map
    (fun g => { g with allowed_touch_objects := ["Block1", "Block2", "Block3", "Block4"] }),
    ?_, ?_, by simp, ?_, ?_⟩
  · simp [pick, World.emit, setAllowedTouchLoop_eq_map]
  · simp [pick, World.emit, setAllowedTouchLoop_eq_map]
  · intro i g hg
    simp [List.getElem?_map, hg]
  · intro h hh
    obtain ⟨g, _, rfl⟩ := List.mem_map.1 hh
    simp

/-- C6, counterexample to the claim as stated: the generator returns no grasp, and `pick` still
calls `move_group_->pick` with the empty list and returns what the service answers,
here success. -/
theorem pick_submits_empty_batch :
    (pick (scriptedEnv (fun _ => true) (fun _ => true) (fun _ => true) (fun _ => 'y') [])
      demoSettings Pose.zero "Block1" (World.start ℚ)).1 = true ∧
    (pick (scriptedEnv (fun _ => true) (fun _ => true) (fun _ => true) (fun _ => 'y') [])
      demoSettings Pose.zero "Block1" (World.start ℚ)).2.trace =
      [Event.generateBlockGrasps Pose.zero,
       Event.publishGrasps [] "gripper_roll_link",
       Event.moveGroupPick "Block1" [] true] := by
  constructor <;> rfl

/-- C6, amended: when the grasp generator returns no grasp, `pick` makes no check of its
own: it calls `move_group_->pick` once, with the empty list, and returns the verdict of
the service. -/
theorem pick_empty_forwards {R : Type} (env : Env R) (cfg : Settings R)
    (block_pose : Pose R) (block_name : String) (w : World R)
    (hempty : env.generateBlockGrasps w.graspCalls block_pose cfg.grasp_data_ = []) :
    (pick env cfg block_pose block_name w).1 = env.pickVerdict w.pickCalls block_name [] ∧
    (pick env cfg block_pose block_name w).2.pickCalls = w.pickCalls + 1 ∧
    (pick env cfg block_pose block_name w).2.trace = w.trace ++
      [Event.generateBlockGrasps block_pose,
       Event.publishGrasps [] cfg.grasp_data_.ee_parent_link_,
       Event.moveGroupPick block_name [] (env.pickVerdict w.pickCalls block_name [])] := by
  simp [pick, World.emit, hempty, setAllowedTouchLoop]

/-- C6 amended, run on an example in which the service rejects the empty batch. -/
theorem pick_empty_forwards_witness :
    (scriptedEnv (fun _ => true) (fun _ => false) (fun _ => true) (fun _ => 'y') []
      ).generateBlockGrasps (World.start ℚ).graspCalls Pose.zero demoSettings.grasp_data_ = [] ∧
    ((pick (scriptedEnv (fun _ => true) (fun _ => false) (fun _ => true) (fun _ => 'y') [])
        demoSettings Pose.zero "Block1" (World.start ℚ)).1 =
      (scriptedEnv (fun _ => true) (fun _ => false) (fun _ => true) (fun _ => 'y') []
        ).pickVerdict (World.start ℚ).pickCalls "Block1" [] ∧
     (pick (scriptedEnv (fun _ => true) (fun _ => false) (fun _ => true) (fun _ => 'y') [])
        demoSettings Pose.zero "Block1" (World.start ℚ)).2.pickCalls =
      (World.start ℚ).pickCalls + 1 ∧
     (pick (scriptedEnv (fun _ => true) (fun _ => false) (fun _ => true) (fun _ => 'y') [])
        demoSettings Pose.zero "Block1" (World.start ℚ)).2.trace = (World.start ℚ).trace ++
      [Event.generateBlockGrasps Pose.zero,
       Event.publishGrasps [] demoSettings.grasp_data_.ee_parent_link_,
       Event.moveGroupPick "Block1" []
         ((scriptedEnv (fun _ => true) (fun _ => false) (fun _ => true) (fun _ => 'y') []
          ).pickVerdict (World.start ℚ).pickCalls "Block1" [])]) :=
  ⟨rfl, pick_empty_forwards _ _ _ _ _ rfl⟩

/-- C7: `promptUser` returns false exactly when `ros::ok()` is false, or the mode is manual
and the character read is `n`.  In auto mode with the process alive it sleeps
`auto_reset_sec_` seconds, reads no character and returns true; in manual mode with the
process alive every character other than `n` gives true. -/
theorem promptUser_false_iff {R : Type} (env : Env R) (cfg : Settings R) (w : World R) :
    ((promptUser env cfg w).1 = false ↔
      (env.rosOk w.okCalls = false ∨
        (cfg.auto_reset_ = false ∧ env.cin w.cinReads = 'n'))) ∧
    (env.rosOk w.okCalls = false →
      (promptUser env cfg w).2.cinReads = w.cinReads ∧
      (promptUser env cfg w).2.trace = w.trace ++ [Event.rosOk false]) ∧
    (cfg.auto_reset_ = true → env.rosOk w.okCalls = true →
      (promptUser env cfg w).1 = true ∧
      (promptUser env cfg w).2.cinReads = w.cinReads ∧
      (promptUser env cfg w).2.trace = w.trace ++
        [Event.rosOk true,
         Event.log LogLevel.info "pick_place"
           ("Auto-retrying in " ++ toString cfg.auto_reset_sec_ ++ " seconds"),
         Event.sleep cfg.auto_reset_sec_]) ∧
    (cfg.auto_reset_ = false → env.rosOk w.okCalls = true →
      ((promptUser env cfg w).1 = true ↔ env.cin w.cinReads ≠ 'n') ∧
      (promptUser env cfg w).2.cinReads = w.cinReads + 1 ∧
      (promptUser env cfg w).2.trace = w.trace ++
        [Event.rosOk true, Event.log LogLevel.info "pick_place" "Retry? (y/n)",
         Event.cinRead (env.cin w.cinReads)]) ∧
    (∀ c : Char, c ∈ ['y', 'N', '0', '1', '9', 'Y'] →
      cfg.auto_reset_ = false → env.rosOk w.okCalls = true → env.cin w.cinReads = c →
      (promptUser env cfg w).1 = true) := by
  unfold promptUser rosOk
  cases hok : env.rosOk w.okCalls <;> cases hauto : cfg.auto_reset_ <;>
    by_cases hc : env.cin w.cinReads = 'n' <;> simp [World.emit, hc]

/-! ## `place` -/

section AnyArithmetic

variable {R : Type} [Zero R] [One R] [NatCast R] [Add R] [Mul R] [Div R] [Neg R] [LT R]
  [DecidableRel (α := R) (· < ·)] [OfScientific R]

theorem placeLoop_stop (env : Env R) (cfg : Settings R)
    (m : Libm R) (goal : Pose R) (header : Header) (fuel : Nat) (angle : R) (w : World R)
    (locs : List (PlaceLocation R)) (h : ¬ angle < 2 * m.pi) :
    placeLoop env cfg m goal header (fuel + 1) angle w locs = some (w, locs) := by
  simp [placeLoop, h]

theorem placeLoop_step (env : Env R) (cfg : Settings R)
    (m : Libm R) (goal : Pose R) (header : Header) (fuel : Nat) (angle : R) (w : World R)
    (locs : List (PlaceLocation R)) (h : angle < 2 * m.pi) :
    placeLoop env cfg m goal header (fuel + 1) angle w locs =
      placeLoop env cfg m goal header fuel (angle + m.pi / 2)
        (placeLoopBody env cfg m goal header angle w).2
        (locs ++ [(placeLoopBody env cfg m goal header angle w).1]) := by
  rw [placeLoop, if_pos h]

/-- Every location that the loop adds was built by the loop body. -/
theorem placeLoop_built (env : Env R) (cfg : Settings R)
    (m : Libm R) (goal : Pose R) (header : Header) :
    ∀ (fuel : Nat) (angle : R) (w : World R) (locs : List (PlaceLocation R))
      (w' : World R) (out : List (PlaceLocation R)),
      placeLoop env cfg m goal header fuel angle w locs = some (w', out) →
      ∃ added, out = locs ++ added ∧
        ∀ l ∈ added, ∃ a w0, l = (placeLoopBody env cfg m goal header a w0).1 := by
  intro fuel
  induction fuel with
  | zero => intro angle w locs w' out h; simp [placeLoop] at h
  | succ fuel ih =>
    intro angle w locs w' out h
    by_cases hlt : angle < 2 * m.pi
    · rw [placeLoop_step _ _ _ _ _ _ _ _ _ hlt] at h
      obtain ⟨added, h1, h2⟩ := ih _ _ _ _ _ h
      refine ⟨(placeLoopBody env cfg m goal header angle w).1 :: added, by simp [h1], ?_⟩
      intro l hl
      rcases List.mem_cons.1 hl with rfl | hl
      · exact ⟨angle, w, rfl⟩
      · exact h2 l hl
    · rw [placeLoop_stop _ _ _ _ _ _ _ _ _ hlt] at h
      simp only [Option.some.injEq, Prod.mk.injEq] at h
      exact ⟨[], by simp [h.2], by simp⟩

/-- When the loop condition holds at the first four yaws and fails at the fifth, the loop
makes four turns and stops. -/
theorem placeLoop_four_of (env : Env R) (cfg : Settings R) (m : Libm R) (goal : Pose R)
    (header : Header) (hm : FourTurns m) (fuel : Nat) (w : World R) :
    ∃ w0 w1 w2 w3 w',
      placeLoop env cfg m goal header (fuel + 5) 0 w [] = some (w',
        [(placeLoopBody env cfg m goal header 0 w0).1,
         (placeLoopBody env cfg m goal header (0 + m.pi / 2) w1).1,
         (placeLoopBody env cfg m goal header (0 + m.pi / 2 + m.pi / 2) w2).1,
         (placeLoopBody env cfg m goal header (0 + m.pi / 2 + m.pi / 2 + m.pi / 2) w3).1]) := by
  obtain ⟨h0, h1, h2, h3, h4⟩ := hm
  have e := (placeLoop_step env cfg m goal header (fuel + 4) 0 w [] h0).trans
    ((placeLoop_step env cfg m goal header (fuel + 3) _ _ _ h1).trans
      ((placeLoop_step env cfg m goal header (fuel + 2) _ _ _ h2).trans
        ((placeLoop_step env cfg m goal header (fuel + 1) _ _ _ h3).trans
          (placeLoop_stop env cfg m goal header fuel _ _ _ h4))))
  exact ⟨_, _, _, _, _, e⟩

/-- The function `place` is its loop followed by one call of `move_group_->place`. -/
theorem place_of_placeLoop (env : Env R) (cfg : Settings R)
    (m : Libm R) (fuel : Nat) (goal : Pose R) (name : String) (w w1 : World R)
    (locs : List (PlaceLocation R))
    (h : placeLoop env cfg m goal
      { seq := 0, stamp := env.now w.nowCalls, frame_id := cfg.grasp_data_.base_link_ } fuel 0
      (rosTimeNow env (w.emit (Event.log LogLevel.warn "place"
        ("Placing \x27" ++ name ++ "\x27")))).2 [] = some (w1, locs)) :
    ∃ w', place env cfg m fuel goal name w =
        some (env.placeVerdict w1.placeCalls name locs, w') ∧
      w'.trace = w1.trace ++ [Event.setPlannerId "RRTConnectkConfigDefault",
        Event.moveGroupPlace name locs (env.placeVerdict w1.placeCalls name locs)] := by
  refine ⟨({ w1.emit (Event.setPlannerId "RRTConnectkConfigDefault") with
      placeCalls := w1.placeCalls + 1 }).emit
      (Event.moveGroupPlace name locs (env.placeVerdict w1.placeCalls name locs)), ?_, ?_⟩
  · unfold place
    simp only [rosTimeNow, World.emit] at h ⊢
    rw [h]
  · simp [World.emit]

theorem place_some (env : Env R) (cfg : Settings R)
    (m : Libm R) (fuel : Nat) (goal : Pose R) (name : String) (w w' : World R) (v : Bool)
    (h : place env cfg m fuel goal name w = some (v, w')) :
    ∃ w1 locs, placeLoop env cfg m goal
      { seq := 0, stamp := env.now w.nowCalls, frame_id := cfg.grasp_data_.base_link_ } fuel 0
      (rosTimeNow env (w.emit (Event.log LogLevel.warn "place"
        ("Placing \x27" ++ name ++ "\x27")))).2 [] = some (w1, locs) ∧
      v = env.placeVerdict w1.placeCalls name locs ∧
      w'.trace = w1.trace ++ [Event.setPlannerId "RRTConnectkConfigDefault",
        Event.moveGroupPlace name locs v] := by
  rcases hl : placeLoop env cfg m goal
      { seq := 0, stamp := env.now w.nowCalls, frame_id := cfg.grasp_data_.base_link_ } fuel 0
      (rosTimeNow env (w.emit (Event.log LogLevel.warn "place"
        ("Placing \x27" ++ name ++ "\x27")))).2 [] with _ | ⟨w1, locs⟩
  · unfold place at h
    simp only [rosTimeNow, World.emit] at h hl
    rw [hl] at h
    simp at h
  · obtain ⟨w2, h2, h3⟩ := place_of_placeLoop env cfg m fuel goal name w w1 locs hl
    rw [h2] at h
    simp only [Option.some.injEq, Prod.mk.injEq] at h
    refine ⟨w1, locs, rfl, h.1.symm, ?_⟩
    rw [← h.2, h3, h.1]

/-- The batch that a returning `place` submitted consists of locations built by the loop
body, with the header that `place` stamped before the loop. -/
theorem place_batch (env : Env R) (cfg : Settings R)
    (m : Libm R) (fuel : Nat) (goal : Pose R) (name : String) (w w' : World R) (v : Bool)
    (h : place env cfg m fuel goal name w = some (v, w')) :
    ∃ pre locs, w'.trace = pre ++ [Event.moveGroupPlace name locs v] ∧
      ∀ l ∈ locs, ∃ a w0, l = (placeLoopBody env cfg m goal
        { seq := 0, stamp := env.now w.nowCalls, frame_id := cfg.grasp_data_.base_link_ }
        a w0).1 := by
  obtain ⟨w1, locs, hl, _, ht⟩ := place_some env cfg m fuel goal name w w' v h
  obtain ⟨added, ha, hb⟩ := placeLoop_built env cfg m goal _ _ _ _ _ _ _ hl
  refine ⟨w1.trace ++ [Event.setPlannerId "RRTConnectkConfigDefault"], locs, by simp [ht], ?_⟩
  intro l hl'
  rw [ha] at hl'
  exact hb l (by simpa using hl')

theorem placeLoop_placeCalls (env : Env R)
    (cfg : Settings R) (m : Libm R) (goal : Pose R) (header : Header) :
    ∀ (fuel : Nat) (angle : R) (w : World R) (locs : List (PlaceLocation R))
      (w' : World R) (out : List (PlaceLocation R)),
      placeLoop env cfg m goal header fuel angle w locs = some (w', out) →
      w'.placeCalls = w.placeCalls := by
  intro fuel
  induction fuel with
  | zero => intro angle w locs w' out h; simp [placeLoop] at h
  | succ fuel ih =>
    intro angle w locs w' out h
    by_cases hlt : angle < 2 * m.pi
    · rw [placeLoop_step _ _ _ _ _ _ _ _ _ hlt] at h
      have := ih _ _ _ _ _ h
      exact this.trans rfl
    · rw [placeLoop_stop _ _ _ _ _ _ _ _ _ hlt] at h
      simp only [Option.some.injEq, Prod.mk.injEq] at h
      rw [← h.1]

/-- When the loop makes four turns, `place` returns and the batch it submitted is the four
locations that the loop body builds at yaw `0`, `π/2`, `π/2 + π/2` and `π/2 + π/2 + π/2`. -/
theorem place_four_of (env : Env R) (cfg : Settings R)
    (m : Libm R) (hm : FourTurns m) (fuel : Nat) (goal : Pose R) (name : String) (w : World R) :
    ∃ v w' pre w0 w1 w2 w3 locs,
      locs =
        [(placeLoopBody env cfg m goal
            { seq := 0, stamp := env.now w.nowCalls, frame_id := cfg.grasp_data_.base_link_ }
            0 w0).1,
         (placeLoopBody env cfg m goal
            { seq := 0, stamp := env.now w.nowCalls, frame_id := cfg.grasp_data_.base_link_ }
            (0 + m.pi / 2) w1).1,
         (placeLoopBody env cfg m goal
            { seq := 0, stamp := env.now w.nowCalls, frame_id := cfg.grasp_data_.base_link_ }
            (0 + m.pi / 2 + m.pi / 2) w2).1,
         (placeLoopBody env cfg m goal
            { seq := 0, stamp := env.now w.nowCalls, frame_id := cfg.grasp_data_.base_link_ }
            (0 + m.pi / 2 + m.pi / 2 + m.pi / 2) w3).1] ∧
      place env cfg m (fuel + 5) goal name w = some (v, w') ∧
      w'.trace = pre ++ [Event.moveGroupPlace name locs v] ∧
      v = env.placeVerdict w.placeCalls name locs := by
  obtain ⟨w0, w1, w2, w3, wl, hl⟩ := placeLoop_four_of env cfg m goal
    { seq := 0, stamp := env.now w.nowCalls, frame_id := cfg.grasp_data_.base_link_ } hm fuel
    (rosTimeNow env (w.emit (Event.log LogLevel.warn "place"
      ("Placing \x27" ++ name ++ "\x27")))).2
  obtain ⟨w', h1, h2⟩ := place_of_placeLoop env cfg m (fuel + 5) goal name w wl _ hl
  have hc : wl.placeCalls = w.placeCalls :=
    (placeLoop_placeCalls env cfg m goal _ _ _ _ _ _ _ hl).trans rfl
  exact ⟨_, w', wl.trace ++ [Event.setPlannerId "RRTConnectkConfigDefault"], w0, w1, w2, w3, _,
    rfl, h1, by simp [h2], by rw [hc]⟩

/-- When the loop makes four turns, every batch that a returning `place` submitted is the
four locations of `place_four_of`: with less fuel `place` does not return. -/
theorem place_some_four (env : Env R) (cfg : Settings R) (m : Libm R) (hm : FourTurns m)
    (fuel : Nat) (goal : Pose R) (name : String) (w w' : World R) (v : Bool)
    (h : place env cfg m fuel goal name w = some (v, w')) :
    ∃ pre w0 w1 w2 w3 locs,
      locs =
        [(placeLoopBody env cfg m goal
            { seq := 0, stamp := env.now w.nowCalls, frame_id := cfg.grasp_data_.base_link_ }
            0 w0).1,
         (placeLoopBody env cfg m goal
            { seq := 0, stamp := env.now w.nowCalls, frame_id := cfg.grasp_data_.base_link_ }
            (0 + m.pi / 2) w1).1,
         (placeLoopBody env cfg m goal
            { seq := 0, stamp := env.now w.nowCalls, frame_id := cfg.grasp_data_.base_link_ }
            (0 + m.pi / 2 + m.pi / 2) w2).1,
         (placeLoopBody env cfg m goal
            { seq := 0, stamp := env.now w.nowCalls, frame_id := cfg.grasp_data_.base_link_ }
            (0 + m.pi / 2 + m.pi / 2 + m.pi / 2) w3).1] ∧
      w'.trace = pre ++ [Event.moveGroupPlace name locs v] := by
  obtain ⟨w1, locs, hl, _, ht⟩ := place_some env cfg m fuel goal name w w' v h
  have hm' := hm
  obtain ⟨h0, h1, h2, h3, h4⟩ := hm'
  rcases fuel with _ | _ | _ | _ | _ | fuel
  · simp [placeLoop] at hl
  · rw [placeLoop_step _ _ _ _ _ _ _ _ _ h0] at hl
    simp [placeLoop] at hl
  · rw [placeLoop_step _ _ _ _ _ _ _ _ _ h0, placeLoop_step _ _ _ _ _ _ _ _ _ h1] at hl
    simp [placeLoop] at hl
  · rw [placeLoop_step _ _ _ _ _ _ _ _ _ h0, placeLoop_step _ _ _ _ _ _ _ _ _ h1,
      placeLoop_step _ _ _ _ _ _ _ _ _ h2] at hl
    simp [placeLoop] at hl
  · rw [placeLoop_step _ _ _ _ _ _ _ _ _ h0, placeLoop_step _ _ _ _ _ _ _ _ _ h1,
      placeLoop_step _ _ _ _ _ _ _ _ _ h2, placeLoop_step _ _ _ _ _ _ _ _ _ h3] at hl
    simp [placeLoop] at hl
  · obtain ⟨w0, w1', w2, w3, wl, hl'⟩ := placeLoop_four_of env cfg m goal
      { seq := 0, stamp := env.now w.nowCalls, frame_id := cfg.grasp_data_.base_link_ } hm fuel
      (rosTimeNow env (w.emit (Event.log LogLevel.warn "place"
        ("Placing \x27" ++ name ++ "\x27")))).2
    rw [hl'] at hl
    simp only [Option.some.injEq, Prod.mk.injEq] at hl
    exact ⟨w1.trace ++ [Event.setPlannerId "RRTConnectkConfigDefault"], w0, w1', w2, w3, locs,
      hl.2.symm, by simp [ht]⟩

/-- The block that `startRoutine` works on has the goal pose `routineGoal`. -/
theorem startRoutine_goal (env : Env R) (cfg : Settings R) (m : Libm R) (fuel : Nat)
    (w : World R) :
    startRoutine env cfg m fuel w =
      (let end_block : MetaBlock R :=
        { createStartBlock m 0.35 0.1 "Block1" with goal_pose := routineGoal m }
      let w := w.emit (Event.setMuted false)
      let w := resetBlock end_block w
      let w := w.emit (Event.log LogLevel.info "pick_place"
        ("Picking \x27" ++ end_block.name ++ "\x27"))
      let w := w.emit (Event.publishBlock end_block.start_pose Color.BLUE BLOCK_SIZE)
      match pickRetryLoop env cfg end_block fuel w with
      | none => none
      | some w =>
        let w := w.emit (Event.log LogLevel.info "pick_place"
          ("Placing \x27" ++ end_block.name ++ "\x27"))
        let w := w.emit (Event.publishBlock (routineGoal m) Color.BLUE BLOCK_SIZE)
        match placeRetryLoop env cfg m end_block fuel w with
        | none => none
        | some w =>
          let w := w.emit Event.publishArmDone
          some (w.emit (Event.log LogLevel.info "pick_place"
            "Finish. ----------------------------"))) :=
  rfl

end AnyArithmetic

/-- In exact arithmetic with `0 < M_PI` the loop condition holds at the first four yaws and
fails at the fifth. -/
theorem fourTurns_of_pos {R : Type} [LinearOrderedField R] (m : Libm R) (hpi : 0 < m.pi) :
    FourTurns m := by
  refine ⟨?_, ?_, ?_, ?_, ?_⟩
  · show (0 : R) < 2 * m.pi
    linarith
  · show (0 : R) + m.pi / 2 < 2 * m.pi
    linarith
  · show (0 : R) + m.pi / 2 + m.pi / 2 < 2 * m.pi
    linarith
  · show (0 : R) + m.pi / 2 + m.pi / 2 + m.pi / 2 < 2 * m.pi
    linarith
  · show ¬ (0 : R) + m.pi / 2 + m.pi / 2 + m.pi / 2 + m.pi / 2 < 2 * m.pi
    intro h
    linarith

/-- With `0 < M_PI` the loop makes four turns, at yaw `0`, `π/2`, `π/2 + π/2` and
`π/2 + π/2 + π/2`, and stops before the fifth. -/
theorem placeLoop_four {R : Type} [LinearOrderedField R] (env : Env R) (cfg : Settings R)
    (m : Libm R) (goal : Pose R) (header : Header) (hpi : 0 < m.pi) (fuel : Nat)
    (w : World R) :
    ∃ w0 w1 w2 w3 w',
      placeLoop env cfg m goal header (fuel + 5) 0 w [] = some (w',
        [(placeLoopBody env cfg m goal header 0 w0).1,
         (placeLoopBody env cfg m goal header (0 + m.pi / 2) w1).1,
         (placeLoopBody env cfg m goal header (0 + m.pi / 2 + m.pi / 2) w2).1,
         (placeLoopBody env cfg m goal header (0 + m.pi / 2 + m.pi / 2 + m.pi / 2) w3).1]) :=
  placeLoop_four_of env cfg m goal header (fourTurns_of_pos m hpi) fuel w

/-- The loop returns whenever it has fuel for five tests of its condition. -/
theorem placeLoop_returns {R : Type} [LinearOrderedField R] (env : Env R) (cfg : Settings R)
    (m : Libm R) (goal : Pose R) (header : Header) (fuel : Nat) (w : World R) :
    ∃ w' out, placeLoop env cfg m goal header (fuel + 5) 0 w [] = some (w', out) := by
  by_cases hpi : 0 < m.pi
  · obtain ⟨_, _, _, _, w', h⟩ := placeLoop_four env cfg m goal header hpi fuel w
    exact ⟨w', _, h⟩
  · have h0 : ¬ (0 : R) < 2 * m.pi := by intro h; apply hpi; linarith
    exact ⟨w, [], placeLoop_stop _ _ _ _ _ _ _ _ _ h0⟩

/-- The function `place` returns whenever it has fuel for five tests of the loop condition. -/
theorem place_returns {R : Type} [LinearOrderedField R] (env : Env R) (cfg : Settings R)
    (m : Libm R) (fuel : Nat) (goal : Pose R) (name : String) (w : World R) :
    ∃ v w', place env cfg m (fuel + 5) goal name w = some (v, w') := by
  obtain ⟨w1, locs, h⟩ := placeLoop_returns env cfg m goal
    { seq := 0, stamp := env.now w.nowCalls, frame_id := cfg.grasp_data_.base_link_ } fuel
    (rosTimeNow env (w.emit (Event.log LogLevel.warn "place"
      ("Placing \x27" ++ name ++ "\x27")))).2
  obtain ⟨w', h', _⟩ := place_of_placeLoop env cfg m (fuel + 5) goal name w w1 locs h
  exact ⟨_, w', h'⟩

theorem quaternionOfAngleAxis_UnitZ {R : Type} [LinearOrderedField R] (m : Libm R) (a : R) :
    quaternionOfAngleAxis m a UnitZ =
      { x := 0, y := 0, z := m.sin (a / 2), w := m.cos (a / 2) } := by
  have h : (0.5 : R) * a = a / 2 := by norm_num; ring
  simp [quaternionOfAngleAxis, UnitZ, h]

/-- With `0 < M_PI`, `place` returns and the batch it submitted is the four locations that
the loop body builds at yaw `0`, `π/2`, `π/2 + π/2` and `π/2 + π/2 + π/2`. -/
theorem place_four {R : Type} [LinearOrderedField R] (env : Env R) (cfg : Settings R)
    (m : Libm R) (hpi : 0 < m.pi) (fuel : Nat) (goal : Pose R) (name : String) (w : World R) :
    ∃ v w' pre w0 w1 w2 w3 locs,
      locs =
        [(placeLoopBody env cfg m goal
            { seq := 0, stamp := env.now w.nowCalls, frame_id := cfg.grasp_data_.base_link_ }
            0 w0).1,
         (placeLoopBody env cfg m goal
            { seq := 0, stamp := env.now w.nowCalls, frame_id := cfg.grasp_data_.base_link_ }
            (0 + m.pi / 2) w1).1,
         (placeLoopBody env cfg m goal
            { seq := 0, stamp := env.now w.nowCalls, frame_id := cfg.grasp_data_.base_link_ }
            (0 + m.pi / 2 + m.pi / 2) w2).1,
         (placeLoopBody env cfg m goal
            { seq := 0, stamp := env.now w.nowCalls, frame_id := cfg.grasp_data_.base_link_ }
            (0 + m.pi / 2 + m.pi / 2 + m.pi / 2) w3).1] ∧
      place env cfg m (fuel + 5) goal name w = some (v, w') ∧
      w'.trace = pre ++ [Event.moveGroupPlace name locs v] ∧
      v = env.placeVerdict w.placeCalls name locs :=
  place_four_of env cfg m (fourTurns_of_pos m hpi) fuel goal name w

/-! ## Binary64 arithmetic -/

/-- The rounding of a positive `q` in the binade `2^e ≤ q < 2^(e+1)`, read off from the
floor `f` of `q` over the spacing of the format in that binade. -/
theorem roundBinary_eval (prec : Nat) (emin : ℤ) (q v : ℚ) (e f n : ℤ) (hq : 0 < q)
    (h1 : (2 : ℚ) ^ e ≤ q) (h2 : q < (2 : ℚ) ^ (e + 1)) (he : emin ≤ e)
    (hf1 : (f : ℚ) ≤ q / 2 ^ (e - ((prec : ℤ) - 1)))
    (hf2 : q / 2 ^ (e - ((prec : ℤ) - 1)) < f + 1)
    (hn : (if q / 2 ^ (e - ((prec : ℤ) - 1)) - f < 1 / 2 then f
      else if 1 / 2 < q / 2 ^ (e - ((prec : ℤ) - 1)) - f then f + 1
      else if f % 2 = 0 then f else f + 1) = n)
    (hv : (n : ℚ) * 2 ^ (e - ((prec : ℤ) - 1)) = v) :
    roundBinary prec emin q = v := by
  have hlog : Int.log 2 q = e := by
    apply le_antisymm
    · have := (Int.lt_zpow_iff_log_lt (R := ℚ) (b := 2) (by norm_num) hq (x := e + 1)).1
        (by exact_mod_cast h2)
      omega
    · exact (Int.zpow_le_iff_le_log (R := ℚ) (b := 2) (by norm_num) hq).1 (by exact_mod_cast h1)
  have hfl : ⌊q / 2 ^ (e - ((prec : ℤ) - 1))⌋ = f := Int.floor_eq_iff.2 ⟨hf1, hf2⟩
  simp only [roundBinary, ne_of_gt hq, if_false, abs_of_pos hq, hlog, max_eq_left he,
    roundHalfEven, hfl, hn, hv]

theorem binary64_two : (2 : Binary64) = ⟨2⟩ := by
  show (⟨roundToFloat64 ((2 : ℕ) : ℚ)⟩ : Binary64) = _
  congr 1
  exact roundBinary_eval 53 (-1022) _ _ 1 4503599627370496 4503599627370496
    (by norm_num) (by norm_num) (by norm_num) (by norm_num) (by norm_num) (by norm_num)
    (by norm_num) (by norm_num)

theorem binary64_lit_06 : (0.6 : Binary64) = ⟨5404319552844595 / 9007199254740992⟩ := by
  show (⟨roundToFloat64 0.6⟩ : Binary64) = _
  congr 1
  exact roundBinary_eval 53 (-1022) _ _ (-1) 5404319552844595 5404319552844595
    (by norm_num) (by norm_num) (by norm_num) (by norm_num) (by norm_num) (by norm_num)
    (by norm_num) (by norm_num)

theorem binary64_lit_04 : (0.4 : Binary64) = ⟨3602879701896397 / 9007199254740992⟩ := by
  show (⟨roundToFloat64 0.4⟩ : Binary64) = _
  congr 1
  exact roundBinary_eval 53 (-1022) _ _ (-2) 7205759403792793 7205759403792794
    (by norm_num) (by norm_num) (by norm_num) (by norm_num) (by norm_num) (by norm_num)
    (by norm_num) (by norm_num)

theorem binary64_two_pi :
    (⟨2⟩ * ⟨884279719003555 / 281474976710656⟩ : Binary64) = ⟨884279719003555 / 140737488355328⟩ := by
  show (⟨roundToFloat64 (2 * (884279719003555 / 281474976710656))⟩ : Binary64) = _
  congr 1
  exact roundBinary_eval 53 (-1022) _ _ (2) 7074237752028440 7074237752028440
    (by norm_num) (by norm_num) (by norm_num) (by norm_num) (by norm_num) (by norm_num)
    (by norm_num) (by norm_num)

theorem binary64_half_pi :
    (⟨884279719003555 / 281474976710656⟩ / ⟨2⟩ : Binary64) = ⟨884279719003555 / 562949953421312⟩ := by
  show (⟨roundToFloat64 (884279719003555 / 281474976710656 / (2))⟩ : Binary64) = _
  congr 1
  exact roundBinary_eval 53 (-1022) _ _ (0) 7074237752028440 7074237752028440
    (by norm_num) (by norm_num) (by norm_num) (by norm_num) (by norm_num) (by norm_num)
    (by norm_num) (by norm_num)

theorem binary64_yaw2 :
    (⟨884279719003555 / 562949953421312⟩ + ⟨884279719003555 / 562949953421312⟩ : Binary64) = ⟨884279719003555 / 281474976710656⟩ := by
  show (⟨roundToFloat64 (884279719003555 / 562949953421312 + (884279719003555 / 562949953421312))⟩ : Binary64) = _
  congr 1
  exact roundBinary_eval 53 (-1022) _ _ (1) 7074237752028440 7074237752028440
    (by norm_num) (by norm_num) (by norm_num) (by norm_num) (by norm_num) (by norm_num)
    (by norm_num) (by norm_num)

theorem binary64_yaw3 :
    (⟨884279719003555 / 281474976710656⟩ + ⟨884279719003555 / 562949953421312⟩ : Binary64) = ⟨2652839157010665 / 562949953421312⟩ := by
  show (⟨roundToFloat64 (884279719003555 / 281474976710656 + (884279719003555 / 562949953421312))⟩ : Binary64) = _
  congr 1
  exact roundBinary_eval 53 (-1022) _ _ (2) 5305678314021330 5305678314021330
    (by norm_num) (by norm_num) (by norm_num) (by norm_num) (by norm_num) (by norm_num)
    (by norm_num) (by norm_num)

theorem binary64_yaw4 :
    (⟨2652839157010665 / 562949953421312⟩ + ⟨884279719003555 / 562949953421312⟩ : Binary64) = ⟨884279719003555 / 140737488355328⟩ := by
  show (⟨roundToFloat64 (2652839157010665 / 562949953421312 + (884279719003555 / 562949953421312))⟩ : Binary64) = _
  congr 1
  exact roundBinary_eval 53 (-1022) _ _ (2) 7074237752028440 7074237752028440
    (by norm_num) (by norm_num) (by norm_num) (by norm_num) (by norm_num) (by norm_num)
    (by norm_num) (by norm_num)

theorem roundToFloat32_06 :
    roundToFloat32 (5404319552844595 / 9007199254740992) = 5033165 / 8388608 :=
  roundBinary_eval 24 (-126) _ _ (-1) 10066329 10066330
    (by norm_num) (by norm_num) (by norm_num) (by norm_num) (by norm_num) (by norm_num)
    (by norm_num) (by norm_num)

theorem roundToFloat32_04 :
    roundToFloat32 (3602879701896397 / 9007199254740992) = 13421773 / 33554432 :=
  roundBinary_eval 24 (-126) _ _ (-2) 13421772 13421773
    (by norm_num) (by norm_num) (by norm_num) (by norm_num) (by norm_num) (by norm_num)
    (by norm_num) (by norm_num)

theorem binary64_neq {a b : ℚ} (h : a ≠ b) : (⟨a⟩ : Binary64) ≠ ⟨b⟩ :=
  fun e => h (congrArg Binary64.val e)

/-- In binary64 with `M_PI` the double nearest to `π`, the yaws are `0`, `π/2`, `π`, `3π/2`
without rounding error, and the fifth, `2π`, is not below `2*M_PI`. -/
theorem fourTurns_libm64 : FourTurns libm64 := by
  have hp : libm64.pi = ⟨884279719003555 / 281474976710656⟩ := rfl
  have hz : (0 : Binary64) = ⟨0⟩ := rfl
  have h1 : (⟨0⟩ + ⟨884279719003555 / 562949953421312⟩ : Binary64) =
      ⟨884279719003555 / 562949953421312⟩ := by
    show (⟨roundToFloat64 (0 + 884279719003555 / 562949953421312)⟩ : Binary64) = _
    congr 1
    exact roundBinary_eval 53 (-1022) _ _ 0 7074237752028440 7074237752028440
      (by norm_num) (by norm_num) (by norm_num) (by norm_num) (by norm_num) (by norm_num)
      (by norm_num) (by norm_num)
  unfold FourTurns
  rw [hp, hz, binary64_two, binary64_two_pi, binary64_half_pi, h1, binary64_yaw2,
    binary64_yaw3, binary64_yaw4]
  refine ⟨?_, ?_, ?_, ?_, ?_⟩
  · show (0 : ℚ) < 884279719003555 / 140737488355328
    norm_num
  · show (884279719003555 / 562949953421312 : ℚ) < 884279719003555 / 140737488355328
    norm_num
  · show (884279719003555 / 281474976710656 : ℚ) < 884279719003555 / 140737488355328
    norm_num
  · show (2652839157010665 / 562949953421312 : ℚ) < 884279719003555 / 140737488355328
    norm_num
  · show ¬ (884279719003555 / 140737488355328 : ℚ) < 884279719003555 / 140737488355328
    norm_num

/-- In binary64, `place` run at the goal of the routine returns, having submitted a batch of
four locations built by the loop body. -/
theorem binary64_place_run (goal : Pose Binary64) :
    ∃ v w' pre w0 w1 w2 w3 locs,
      locs =
        [(placeLoopBody demoEnv64 demoSettings64 libm64 goal
            { seq := 0, stamp := demoEnv64.now (World.start Binary64).nowCalls,
              frame_id := demoSettings64.grasp_data_.base_link_ } 0 w0).1,
         (placeLoopBody demoEnv64 demoSettings64 libm64 goal
            { seq := 0, stamp := demoEnv64.now (World.start Binary64).nowCalls,
              frame_id := demoSettings64.grasp_data_.base_link_ } (0 + libm64.pi / 2) w1).1,
         (placeLoopBody demoEnv64 demoSettings64 libm64 goal
            { seq := 0, stamp := demoEnv64.now (World.start Binary64).nowCalls,
              frame_id := demoSettings64.grasp_data_.base_link_ }
            (0 + libm64.pi / 2 + libm64.pi / 2) w2).1,
         (placeLoopBody demoEnv64 demoSettings64 libm64 goal
            { seq := 0, stamp := demoEnv64.now (World.start Binary64).nowCalls,
              frame_id := demoSettings64.grasp_data_.base_link_ }
            (0 + libm64.pi / 2 + libm64.pi / 2 + libm64.pi / 2) w3).1] ∧
      place demoEnv64 demoSettings64 libm64 5 goal "Block1" (World.start Binary64)
        = some (v, w') ∧
      w'.trace = pre ++ [Event.moveGroupPlace "Block1" locs v] ∧
      v = demoEnv64.placeVerdict (World.start Binary64).placeCalls "Block1" locs :=
  place_four_of demoEnv64 demoSettings64 libm64 fourTurns_libm64 0 goal "Block1"
    (World.start Binary64)

/-- In binary64 the approach distance `0.6` of the gripper parameters, stored in a `float`
field, becomes `0.60000002384185791015625`. -/
theorem binary64_narrow_desired :
    demoSettings64.grasp_data_.approach_retreat_desired_dist_ =
      ⟨5404319552844595 / 9007199254740992⟩ ∧
    libm64.toFloat32 demoSettings64.grasp_data_.approach_retreat_desired_dist_ =
      ⟨5033165 / 8388608⟩ := by
  have h : demoSettings64.grasp_data_.approach_retreat_desired_dist_ =
      ⟨5404319552844595 / 9007199254740992⟩ := binary64_lit_06
  refine ⟨h, ?_⟩
  rw [h]
  show (⟨roundToFloat32 (5404319552844595 / 9007199254740992)⟩ : Binary64) = _
  rw [roundToFloat32_06]

/-- In binary64 the retreat distance `0.4` of the gripper parameters, stored in a `float`
field, becomes `0.4000000059604644775390625`. -/
theorem binary64_narrow_min :
    demoSettings64.grasp_data_.approach_retreat_min_dist_ =
      ⟨3602879701896397 / 9007199254740992⟩ ∧
    libm64.toFloat32 demoSettings64.grasp_data_.approach_retreat_min_dist_ =
      ⟨13421773 / 33554432⟩ := by
  have h : demoSettings64.grasp_data_.approach_retreat_min_dist_ =
      ⟨3602879701896397 / 9007199254740992⟩ := binary64_lit_04
  refine ⟨h, ?_⟩
  rw [h]
  show (⟨roundToFloat32 (3602879701896397 / 9007199254740992)⟩ : Binary64) = _
  rw [roundToFloat32_04]

/-- C3: over the real numbers, with the real `π`, `sin` and `cos`, `place` returns for
every goal pose and every gripper parameter set, and the batch it submits has exactly four
locations; for `k = 0, 1, 2, 3` the `k`-th has the orientation of a rotation by the yaw
`k * π/2` about the vertical axis, which is the quaternion `(0, 0, sin (k*π/4), cos (k*π/4))`
of norm 1. -/
theorem place_builds_four_yaws (env : Env ℝ) (cfg : Settings ℝ) (narrow : ℝ → ℝ)
    (goal : Pose ℝ) (name : String) (w : World ℝ) (fuel : Nat) :
    ∃ (v : Bool) (w' : World ℝ) (pre : List (Event ℝ)) (locs : List (PlaceLocation ℝ)),
      place env cfg
          { pi := Real.pi, sin := Real.sin, cos := Real.cos, toFloat32 := narrow }
          (fuel + 5) goal name w = some (v, w') ∧
      w'.trace = pre ++ [Event.moveGroupPlace name locs v] ∧
      locs.length = 4 ∧
      ∀ k : Nat, k < 4 → ∃ l, locs[k]? = some l ∧
        l.place_pose.pose.orientation =
          quaternionOfAngleAxis
            { pi := Real.pi, sin := Real.sin, cos := Real.cos, toFloat32 := narrow }
            ((k : ℝ) * (Real.pi / 2)) UnitZ ∧
        l.place_pose.pose.orientation =
          ({ x := 0, y := 0, z := Real.sin ((k : ℝ) * (Real.pi / 4)),
             w := Real.cos ((k : ℝ) * (Real.pi / 4)) } : Quaternion ℝ) ∧
        Real.sqrt (l.place_pose.pose.orientation.x ^ 2 + l.place_pose.pose.orientation.y ^ 2 +
          l.place_pose.pose.orientation.z ^ 2 + l.place_pose.pose.orientation.w ^ 2) = 1 := by
  obtain ⟨v, w', pre, w0, w1, w2, w3, locs, rfl, h1, h2, _⟩ :=
    place_four env cfg { pi := Real.pi, sin := Real.sin, cos := Real.cos, toFloat32 := narrow } Real.pi_pos fuel
      goal name w
  refine ⟨v, w', pre, _, h1, h2, rfl, ?_⟩
  have key : ∀ (a : ℝ) (k : Nat) (w0 : World ℝ) (header : Header),
      a = (k : ℝ) * (Real.pi / 2) →
      (placeLoopBody env cfg { pi := Real.pi, sin := Real.sin, cos := Real.cos, toFloat32 := narrow } goal header
          a w0).1.place_pose.pose.orientation =
        quaternionOfAngleAxis { pi := Real.pi, sin := Real.sin, cos := Real.cos, toFloat32 := narrow }
          ((k : ℝ) * (Real.pi / 2)) UnitZ ∧
      (placeLoopBody env cfg { pi := Real.pi, sin := Real.sin, cos := Real.cos, toFloat32 := narrow } goal header
          a w0).1.place_pose.pose.orientation =
        { x := 0, y := 0, z := Real.sin ((k : ℝ) * (Real.pi / 4)),
          w := Real.cos ((k : ℝ) * (Real.pi / 4)) } ∧
      Real.sqrt ((placeLoopBody env cfg { pi := Real.pi, sin := Real.sin, cos := Real.cos, toFloat32 := narrow }
          goal header a w0).1.place_pose.pose.orientation.x ^ 2 +
        (placeLoopBody env cfg { pi := Real.pi, sin := Real.sin, cos := Real.cos, toFloat32 := narrow }
          goal header a w0).1.place_pose.pose.orientation.y ^ 2 +
        (placeLoopBody env cfg { pi := Real.pi, sin := Real.sin, cos := Real.cos, toFloat32 := narrow }
          goal header a w0).1.place_pose.pose.orientation.z ^ 2 +
        (placeLoopBody env cfg { pi := Real.pi, sin := Real.sin, cos := Real.cos, toFloat32 := narrow }
          goal header a w0).1.place_pose.pose.orientation.w ^ 2) = 1 := by
    intro a k w0 header ha
    have hq : (placeLoopBody env cfg { pi := Real.pi, sin := Real.sin, cos := Real.cos, toFloat32 := narrow } goal
        header a w0).1.place_pose.pose.orientation =
        quaternionOfAngleAxis { pi := Real.pi, sin := Real.sin, cos := Real.cos, toFloat32 := narrow } a UnitZ := rfl
    have hk : (k : ℝ) * (Real.pi / 2) / 2 = (k : ℝ) * (Real.pi / 4) := by ring
    rw [hq, ha, quaternionOfAngleAxis_UnitZ, hk]
    refine ⟨rfl, rfl, ?_⟩
    simp
  intro k hk
  interval_cases k
  · exact ⟨_, rfl, key _ 0 _ _ (by push_cast; ring)⟩
  · exact ⟨_, rfl, key _ 1 _ _ (by push_cast; ring)⟩
  · exact ⟨_, rfl, key _ 2 _ _ (by push_cast; ring)⟩
  · exact ⟨_, rfl, key _ 3 _ _ (by push_cast; ring)⟩

/-- C9, counterexample to the claim as stated: in binary64, with approach distance `0.6`
and minimum distance `0.4` in the gripper parameters, `place` submits four locations whose
`desired_distance` is `0.60000002384185791015625` and whose `min_distance` is
`0.4000000059604644775390625`: the parameters narrowed to `float`, not the parameters. -/
theorem place_narrows_distances :
    ∃ (v : Bool) (w' : World Binary64) (pre : List (Event Binary64))
        (locs : List (PlaceLocation Binary64)),
      place demoEnv64 demoSettings64 libm64 5 (routineGoal libm64) "Block1"
        (World.start Binary64) = some (v, w') ∧
      w'.trace = pre ++ [Event.moveGroupPlace "Block1" locs v] ∧
      locs.length = 4 ∧
      ∀ l ∈ locs,
        l.pre_place_approach.desired_distance = ⟨5033165 / 8388608⟩ ∧
        l.pre_place_approach.desired_distance ≠
          demoSettings64.grasp_data_.approach_retreat_desired_dist_ ∧
        l.post_place_retreat.min_distance = ⟨13421773 / 33554432⟩ ∧
        l.post_place_retreat.min_distance ≠
          demoSettings64.grasp_data_.approach_retreat_min_dist_ := by
  obtain ⟨v, w', pre, w0, w1, w2, w3, locs, rfl, h1, h2, _⟩ :=
    binary64_place_run (routineGoal libm64)
  refine ⟨v, w', pre, _, h1, h2, rfl, ?_⟩
  have key : ∀ (header : Header) (a : Binary64) (w0 : World Binary64),
      (placeLoopBody demoEnv64 demoSettings64 libm64 (routineGoal libm64) header a
          w0).1.pre_place_approach.desired_distance = ⟨5033165 / 8388608⟩ ∧
      (placeLoopBody demoEnv64 demoSettings64 libm64 (routineGoal libm64) header a
          w0).1.pre_place_approach.desired_distance ≠
        demoSettings64.grasp_data_.approach_retreat_desired_dist_ ∧
      (placeLoopBody demoEnv64 demoSettings64 libm64 (routineGoal libm64) header a
          w0).1.post_place_retreat.min_distance = ⟨13421773 / 33554432⟩ ∧
      (placeLoopBody demoEnv64 demoSettings64 libm64 (routineGoal libm64) header a
          w0).1.post_place_retreat.min_distance ≠
        demoSettings64.grasp_data_.approach_retreat_min_dist_ := by
    intro header a w0
    have hd : (placeLoopBody demoEnv64 demoSettings64 libm64 (routineGoal libm64) header a
        w0).1.pre_place_approach.desired_distance =
        libm64.toFloat32 demoSettings64.grasp_data_.approach_retreat_desired_dist_ := rfl
    have hm : (placeLoopBody demoEnv64 demoSettings64 libm64 (routineGoal libm64) header a
        w0).1.post_place_retreat.min_distance =
        libm64.toFloat32 demoSettings64.grasp_data_.approach_retreat_min_dist_ := rfl
    rw [hd, hm, binary64_narrow_desired.2, binary64_narrow_min.2, binary64_narrow_desired.1,
      binary64_narrow_min.1]
    exact ⟨rfl, binary64_neq (by norm_num), rfl, binary64_neq (by norm_num)⟩
  intro l hl
  simp only [List.mem_cons, List.mem_singleton, List.not_mem_nil, or_false] at hl
  rcases hl with rfl | rfl | rfl | rfl <;> exact key _ _ _

/-- C9, amended: with `0 < M_PI`, `place` returns whenever it has fuel for five tests of its
loop condition, and every batch that it submits has four locations.  Each has approach
direction `(0, 0, -1)` and retreat direction `(0, 0, 1)`, both in the frame `base_link_` of
the gripper parameters, and the pre-grasp posture of the gripper parameters as its
post-place posture.  The `desired_distance` and `min_distance` of both are the desired and
minimum distances of the gripper parameters converted from `double` to `float`, the type
of the message fields. -/
theorem place_candidates_geometry {R : Type} [LinearOrderedField R] (env : Env R)
    (cfg : Settings R) (m : Libm R) (goal : Pose R) (name : String) (w : World R)
    (hpi : 0 < m.pi) :
    (∀ fuel, ∃ v w', place env cfg m (fuel + 5) goal name w = some (v, w')) ∧
    (∀ fuel v w', place env cfg m fuel goal name w = some (v, w') →
      ∃ (pre : List (Event R)) (locs : List (PlaceLocation R)),
        w'.trace = pre ++ [Event.moveGroupPlace name locs v] ∧
        locs.length = 4 ∧
        ∀ l ∈ locs,
          l.pre_place_approach.direction.vector = ({ x := 0, y := 0, z := -1 } : Vector3 R) ∧
          l.post_place_retreat.direction.vector = ({ x := 0, y := 0, z := 1 } : Vector3 R) ∧
          l.pre_place_approach.desired_distance =
            m.toFloat32 cfg.grasp_data_.approach_retreat_desired_dist_ ∧
          l.pre_place_approach.min_distance =
            m.toFloat32 cfg.grasp_data_.approach_retreat_min_dist_ ∧
          l.post_place_retreat.desired_distance =
            m.toFloat32 cfg.grasp_data_.approach_retreat_desired_dist_ ∧
          l.post_place_retreat.min_distance =
            m.toFloat32 cfg.grasp_data_.approach_retreat_min_dist_ ∧
          l.pre_place_approach.direction.header.frame_id = cfg.grasp_data_.base_link_ ∧
          l.post_place_retreat.direction.header.frame_id = cfg.grasp_data_.base_link_ ∧
          l.post_place_posture = cfg.grasp_data_.pre_grasp_posture_) := by
  refine ⟨fun fuel => place_returns env cfg m fuel goal name w, ?_⟩
  intro fuel v w' h
  obtain ⟨pre, w0, w1, w2, w3, locs, rfl, h1⟩ :=
    place_some_four env cfg m (fourTurns_of_pos m hpi) fuel goal name w w' v h
  refine ⟨pre, _, h1, rfl, ?_⟩
  intro l hl
  simp only [List.mem_cons, List.mem_singleton, List.not_mem_nil, or_false] at hl
  rcases hl with rfl | rfl | rfl | rfl <;>
    exact ⟨rfl, rfl, rfl, rfl, rfl, rfl, rfl, rfl, rfl⟩

/-- C9 amended, run on an example in exact rational arithmetic, at the goal of the
routine. -/
theorem place_candidates_geometry_witness :
    0 < demoLibm.pi ∧
    ((∀ fuel, ∃ v w', place demoEnv demoSettings demoLibm (fuel + 5) (routineGoal demoLibm) "Block1"
         (World.start ℚ) = some (v, w')) ∧
     (∀ fuel v w', place demoEnv demoSettings demoLibm fuel (routineGoal demoLibm) "Block1"
         (World.start ℚ) = some (v, w') →
       ∃ (pre : List (Event ℚ)) (locs : List (PlaceLocation ℚ)),
         w'.trace = pre ++ [Event.moveGroupPlace "Block1" locs v] ∧
         locs.length = 4 ∧
         ∀ l ∈ locs,
           l.pre_place_approach.direction.vector = ({ x := 0, y := 0, z := -1 } : Vector3 ℚ) ∧
           l.post_place_retreat.direction.vector = ({ x := 0, y := 0, z := 1 } : Vector3 ℚ) ∧
           l.pre_place_approach.desired_distance =
             demoLibm.toFloat32 demoSettings.grasp_data_.approach_retreat_desired_dist_ ∧
           l.pre_place_approach.min_distance =
             demoLibm.toFloat32 demoSettings.grasp_data_.approach_retreat_min_dist_ ∧
           l.post_place_retreat.desired_distance =
             demoLibm.toFloat32 demoSettings.grasp_data_.approach_retreat_desired_dist_ ∧
           l.post_place_retreat.min_distance =
             demoLibm.toFloat32 demoSettings.grasp_data_.approach_retreat_min_dist_ ∧
           l.pre_place_approach.direction.header.frame_id = demoSettings.grasp_data_.base_link_ ∧
           l.post_place_retreat.direction.header.frame_id = demoSettings.grasp_data_.base_link_ ∧
           l.post_place_posture = demoSettings.grasp_data_.pre_grasp_posture_)) :=
  ⟨by norm_num [demoLibm],
    place_candidates_geometry demoEnv demoSettings demoLibm (routineGoal demoLibm) "Block1"
      (World.start ℚ) (by norm_num [demoLibm])⟩

/-- C10, counterexample to the claim as stated: with `base_link_` the empty string, `place` returns
success after submitting a batch of four locations whose frame id is the empty string. -/
theorem place_submits_empty_frame :
    ∃ (v : Bool) (w' : World ℚ) (pre : List (Event ℚ)) (locs : List (PlaceLocation ℚ)),
      place demoEnv { demoSettings with grasp_data_ := demoGraspData "" } demoLibm 5
        Pose.zero "Block1" (World.start ℚ) = some (v, w') ∧
      w'.trace = pre ++ [Event.moveGroupPlace "Block1" locs v] ∧
      v = true ∧ locs.length = 4 ∧
      ∀ l ∈ locs, l.place_pose.header.frame_id = "" := by
  obtain ⟨v, w', pre, w0, w1, w2, w3, locs, rfl, h1, h2, h4⟩ :=
    place_four demoEnv { demoSettings with grasp_data_ := demoGraspData "" } demoLibm
      (by norm_num [demoLibm]) 0 Pose.zero "Block1" (World.start ℚ)
  refine ⟨v, w', pre, _, h1, h2, ?_, rfl, ?_⟩
  · rw [h4]; rfl
  · intro l hl
    simp only [List.mem_cons, List.mem_singleton, List.not_mem_nil, or_false] at hl
    rcases hl with rfl | rfl | rfl | rfl <;> rfl

/-- C10, amended: `place` makes no check of the frame.  When `base_link_` is the empty
string (and `0 < M_PI`), `place` still returns, having submitted to the planning service a
batch of four locations whose place pose, approach and retreat all carry the empty frame
id, and it returns the verdict of the service. -/
theorem place_keeps_empty_frame {R : Type} [LinearOrderedField R] (env : Env R)
    (cfg : Settings R) (m : Libm R) (goal : Pose R) (name : String) (w : World R) (fuel : Nat)
    (hframe : cfg.grasp_data_.base_link_ = "") (hpi : 0 < m.pi) :
    ∃ (v : Bool) (w' : World R) (pre : List (Event R)) (locs : List (PlaceLocation R)),
      place env cfg m (fuel + 5) goal name w = some (v, w') ∧
      w'.trace = pre ++ [Event.moveGroupPlace name locs v] ∧
      v = env.placeVerdict w.placeCalls name locs ∧
      locs.length = 4 ∧
      ∀ l ∈ locs, l.place_pose.header.frame_id = "" ∧
        l.pre_place_approach.direction.header.frame_id = "" ∧
        l.post_place_retreat.direction.header.frame_id = "" := by
  obtain ⟨v, w', pre, w0, w1, w2, w3, locs, rfl, h1, h2, h4⟩ :=
    place_four env cfg m hpi fuel goal name w
  refine ⟨v, w', pre, _, h1, h2, h4, rfl, ?_⟩
  · intro l hl
    simp only [List.mem_cons, List.mem_singleton, List.not_mem_nil, or_false] at hl
    rcases hl with rfl | rfl | rfl | rfl <;> exact ⟨hframe, hframe, hframe⟩

/-- C10 amended, run on an example with the rational stand-in for the math library. -/
theorem place_keeps_empty_frame_witness :
    ({ demoSettings with grasp_data_ := demoGraspData "" } : Settings ℚ).grasp_data_.base_link_
      = "" ∧
    0 < demoLibm.pi ∧
    ∃ (v : Bool) (w' : World ℚ) (pre : List (Event ℚ)) (locs : List (PlaceLocation ℚ)),
      place demoEnv { demoSettings with grasp_data_ := demoGraspData "" } demoLibm (0 + 5)
        Pose.zero "Block1" (World.start ℚ) = some (v, w') ∧
      w'.trace = pre ++ [Event.moveGroupPlace "Block1" locs v] ∧
      v = demoEnv.placeVerdict (World.start ℚ).placeCalls "Block1" locs ∧
      locs.length = 4 ∧
      ∀ l ∈ locs, l.place_pose.header.frame_id = "" ∧
        l.pre_place_approach.direction.header.frame_id = "" ∧
        l.post_place_retreat.direction.header.frame_id = "" :=
  ⟨rfl, by norm_num [demoLibm],
    place_keeps_empty_frame demoEnv { demoSettings with grasp_data_ := demoGraspData "" }
      demoLibm Pose.zero "Block1" (World.start ℚ) 0 rfl (by norm_num [demoLibm])⟩

end ClamPickPlace
